import Mathlib

/-!
Verification of the WEC (Water-Energy Calculations) reservoir-planning core.

The Python sources are embedded shallowly over `ℚ`: every numeric quantity the
code manipulates as a float is modelled as an exact rational, pure functions
become Lean functions, and the `while True` search loops become fuel-indexed
recursions returning `Option` (`none` models non-termination within the given
fuel / a raised exception).  Each definition carries a comment naming the
Python function it embeds.
-/

namespace WEC

/-- Embeds the scan loop of `numpy/__init__.py::interp` (the project's stub of
`numpy.interp`): walk the pairs of the curve until `x ≤ xp[i]`, interpolate
linearly on that segment, and fall back to the last dependent value after the
loop.  `x0, y0` is the previously visited pair. -/
def interpScan (x : ℚ) (x0 y0 : ℚ) : List ℚ → List ℚ → ℚ
  | x1 :: xs, y1 :: ys =>
    if x ≤ x1 then y0 + (y1 - y0) * (x - x0) / (x1 - x0)
    else interpScan x x1 y1 xs ys
  | _, _ => y0

/-- Embeds `numpy/__init__.py::interp` (`default_interp` in
`wec/core/interpolation.py` is a thin wrapper around it): clamped piecewise
linear interpolation of `x` over the parallel curves `xp`/`fp`.  The stub
indexes `xp` and `fp` in lockstep, so it is only called on equal-length
curves; on an empty curve the Python stub raises `IndexError`, modelled by
the junk value `0` (never reached under the `Geometry` invariants). -/
def interp (x : ℚ) (xp fp : List ℚ) : ℚ :=
  match xp, fp with
  | x0 :: xs, y0 :: ys => if x ≤ x0 then y0 else interpScan x x0 y0 xs ys
  | _, _ => 0

/-- Embeds `wec/domain/geometry.py::Geometry`: the two rating-curve pairs.
The dataclass performs no validation. -/
structure Geometry where
  headwater_marks : List ℚ
  average_volumes : List ℚ
  lowwater_marks : List ℚ
  lowwater_inflows : List ℚ

/-- Embeds `wec/domain/static_levels.py::StaticLevels`: a plain dataclass
with fields `nrl`, `dead`, `installed_capacity` and no `__post_init__`, so
construction stores the three numbers unchecked. -/
structure StaticLevels where
  nrl : ℚ
  dead : ℚ
  installed_capacity : ℚ

/-- Embeds `wec/domain/hydrological_series.py::HydrologicalSeries`
(the three parallel monthly lists; its `__post_init__` length check is
modelled separately by `HydrologicalSeries.lengthsOk`). -/
structure HydrologicalSeries where
  months : List ℤ
  domestic_inflows : List ℚ
  guaranteed_capacity : List ℚ

/-- The `__post_init__` check of `HydrologicalSeries`: all three lists have
equal length (a `ValueError` is raised otherwise). -/
def HydrologicalSeries.lengthsOk (s : HydrologicalSeries) : Prop :=
  s.months.length = s.domestic_inflows.length ∧
    s.months.length = s.guaranteed_capacity.length

/-- Modelled from the spec: `wec/constants.py` (imported as
`..constants.SECONDS_PER_MONTH` by the simulator and every optimizer) is
absent from the sources; the spec only calls it "a fixed seconds-per-month
constant".  We fix it to 30 days of 86400 seconds.  All general theorems
below are independent of the concrete value; only concrete evaluations use
it. -/
def SECONDS_PER_MONTH : ℚ := 2592000

/-- Embeds `wec/core/month_selector.py::OperationMode`. -/
inductive OperationMode where
  | FILL
  | DISCHARGE
deriving DecidableEq, Repr

/-- Embeds `wec/core/formulas.py::compute_lowwater_mark`: interpolate the
discharge curve (Q → Z_lowwater). -/
def compute_lowwater_mark (q : ℚ) (geom : Geometry) : ℚ :=
  interp q geom.lowwater_inflows geom.lowwater_marks

/-- Embeds `wec/core/formulas.py::compute_headwater_mark`: interpolate the
volume curve (V → Z_headwater). -/
def compute_headwater_mark (volume : ℚ) (geom : Geometry) : ℚ :=
  interp volume geom.average_volumes geom.headwater_marks

/-- Embeds `wec/core/formulas.py::compute_domestic_capacity`:
`N = 8.5 · Q · H / 1000`. -/
def compute_domestic_capacity (q h : ℚ) : ℚ :=
  8.5 * q * h / 1000

/-- Embeds the primary classification loop of
`wec/core/month_selector.py::MonthSelector.calc_modes`: a month is DISCHARGE
when the domestic capacity at NRL head is strictly below the guaranteed
capacity, FILL otherwise.  Iterates `zip(domestic_inflows,
guaranteed_capacity)` in order. -/
def classifyModes (geom : Geometry) (levels : StaticLevels) :
    List (ℚ × ℚ) → List OperationMode
  | [] => []
  | (q_byt, n_gar) :: rest =>
    let z_low := compute_lowwater_mark q_byt geom
    let head := levels.nrl - z_low
    let n_byt := compute_domestic_capacity q_byt head
    (if n_byt < n_gar then OperationMode.DISCHARGE else OperationMode.FILL) ::
      classifyModes geom levels rest

/-- Embeds the interior smoothing loop of `calc_modes`
(`for i in range(1, len(modes) - 1)`): a FILL month whose already-updated
predecessor and not-yet-visited successor are both DISCHARGE is reclassified
DISCHARGE, scanning left to right.  `prev` is the (updated) value at the
previous index. -/
def smoothInteriorAux (prev : OperationMode) :
    List OperationMode → List OperationMode
  | cur :: next :: rest =>
    if prev = OperationMode.DISCHARGE ∧ cur = OperationMode.FILL ∧
        next = OperationMode.DISCHARGE then
      OperationMode.DISCHARGE ::
        smoothInteriorAux OperationMode.DISCHARGE (next :: rest)
    else
      cur :: smoothInteriorAux cur (next :: rest)
  | l => l

/-- The interior smoothing pass: the first element is never rewritten, the
scan starts at index 1. -/
def smoothInterior : List OperationMode → List OperationMode
  | [] => []
  | m0 :: rest => m0 :: smoothInteriorAux m0 rest

/-- Embeds the two cyclic-boundary fixups at the end of `calc_modes`: first
the pattern `modes[-1] = D, modes[0] = F, modes[1] = D` rewrites index 0,
then (on the updated list) `modes[-2] = D, modes[-1] = F, modes[0] = D`
rewrites the last index.  Python indexes `[-1]`, `[0]`, `[1]`, `[-2]`
directly (an `IndexError` on lists shorter than 2, which `calc_modes` never
feeds it); out-of-range lookups here yield `none` and leave the list
unchanged. -/
def smoothEdges (modes : List OperationMode) : List OperationMode :=
  let m1 :=
    if modes.getLast? = some OperationMode.DISCHARGE ∧
        modes.head? = some OperationMode.FILL ∧
        modes[1]? = some OperationMode.DISCHARGE then
      modes.set 0 OperationMode.DISCHARGE
    else modes
  if (m1.drop (m1.length - 2)).head? = some OperationMode.DISCHARGE ∧
      m1.getLast? = some OperationMode.FILL ∧
      m1.head? = some OperationMode.DISCHARGE then
    m1.set (m1.length - 1) OperationMode.DISCHARGE
  else m1

/-- Embeds `wec/core/month_selector.py::MonthSelector.calc_modes`: primary
classification followed by the interior smoothing pass and the two cyclic
fixups. -/
def MonthSelector.calc_modes (series : HydrologicalSeries) (geom : Geometry)
    (levels : StaticLevels) : List OperationMode :=
  smoothEdges (smoothInterior
    (classifyModes geom levels
      (series.domestic_inflows.zip series.guaranteed_capacity)))

/-- The concrete optimizer classes a factory key can resolve to. -/
inductive OptimizerChoice where
  | greedy
  | dynamic
deriving DecidableEq, Repr

/-- Embeds `wec/optimizers/__init__.py::get`: the name-keyed factory.  The
source recognizes exactly the keys `"greedy"` and `"dynamic"` and raises
`ValueError` (modelled by `Except.error`) on every other name. -/
def get (name : String) : Except String OptimizerChoice :=
  if name = "greedy" then Except.ok OptimizerChoice.greedy
  else if name = "dynamic" then Except.ok OptimizerChoice.dynamic
  else Except.error ("Unknown optimizer " ++ name)

/-- Embeds `numpy/__init__.py::argmax` (the project's stub): index of the
first strict maximum, starting from index 0.  Python raises `IndexError` on
an empty sequence; here the junk value 0 is returned (never reached: all
call sites pass non-empty lists). -/
def npArgmaxAux (i best_idx : ℕ) (best : ℚ) : List ℚ → ℕ
  | [] => best_idx
  | v :: rest =>
    if v > best then npArgmaxAux (i + 1) i v rest
    else npArgmaxAux (i + 1) best_idx best rest

/-- See `npArgmaxAux`: the stub scans the whole sequence (including index
0, where `v > seq[0]` is false) keeping the first strict maximum. -/
def npArgmax (seq : List ℚ) : ℕ :=
  npArgmaxAux 0 0 (seq.headD 0) seq

def modeIndicesAux (mode : OperationMode) : ℕ → List OperationMode → List ℕ
  | _, [] => []
  | i, m :: ms =>
    if m = mode then i :: modeIndicesAux mode (i + 1) ms
    else modeIndicesAux mode (i + 1) ms

/-- `[i for i, m in enumerate(modes) if m is mode]` — the index lists
`fill_idx` / `disc_idx` built by the greedy optimizer and the simulator. -/
def modeIndices (mode : OperationMode) (modes : List OperationMode) :
    List ℕ :=
  modeIndicesAux mode 0 modes

/-- Embeds the `while True` discharge-sizing loop shared verbatim by
`wec/optimizers/greedy.py::GreedyOptimizer._calc_discharge` and
`wec/core/reservoir_simulator.py::ReservoirSimulator._calc_discharge_volumes`
(their loop bodies are line-identical): starting from the given `dV`, grow it
by 0.01 km³ until `min(8.5·q·(nrl − z_low(q))/1000, installed_capacity)`
reaches `1.05 · n_gar`, where `q = q_byt + dV·10⁹/SECONDS_PER_MONTH`.
`fuel` bounds the number of growth steps; `none` models a loop that has not
exited within `fuel` steps.  `dischargeTargetMet` is the loop's exit
condition `n_ges ≥ 1.05 · n_gar`. -/
def dischargeTargetMet (geom : Geometry) (levels : StaticLevels)
    (q_byt n_gar dV : ℚ) : Prop :=
  min
    (compute_domestic_capacity (q_byt + dV * 1000000000 / SECONDS_PER_MONTH)
      (levels.nrl - compute_lowwater_mark
        (q_byt + dV * 1000000000 / SECONDS_PER_MONTH) geom))
    levels.installed_capacity ≥ 1.05 * n_gar

instance (geom : Geometry) (levels : StaticLevels) (q_byt n_gar dV : ℚ) :
    Decidable (dischargeTargetMet geom levels q_byt n_gar dV) :=
  inferInstanceAs (Decidable (_ ≥ _))

/-- See the comment above `dischargeTargetMet`: one growth step of the
shared `while True` loop. -/
def dischargeSizingLoop (geom : Geometry) (levels : StaticLevels)
    (q_byt n_gar : ℚ) : ℕ → ℚ → Option ℚ
  | fuel, dV =>
    if dischargeTargetMet geom levels q_byt n_gar dV then some dV
    else
      match fuel with
      | 0 => none
      | fuel + 1 =>
        dischargeSizingLoop geom levels q_byt n_gar fuel (dV + 1 / 100)

/-- Embeds `GreedyOptimizer._calc_discharge`: run the sizing loop (from
`dV = 0`) for every index in `d_idx`.  Python indexes
`series.domestic_inflows[idx]` directly; `getD _ 0` models it (the indices
come from `enumerate(modes)` and are in range whenever the constructor-time
length checks hold). -/
def GreedyOptimizer.calc_discharge (geom : Geometry) (levels : StaticLevels)
    (series : HydrologicalSeries) (fuel : ℕ) : List ℕ → Option (List ℚ)
  | [] => some []
  | idx :: rest =>
    match dischargeSizingLoop geom levels
        (series.domestic_inflows.getD idx 0)
        (series.guaranteed_capacity.getD idx 0) fuel 0 with
    | none => none
    | some dV =>
      match GreedyOptimizer.calc_discharge geom levels series fuel rest with
      | none => none
      | some tail => some (dV :: tail)

/-- Embeds `GreedyOptimizer._initial_fill`: the even split of the total
discharge volume over the fill months. -/
def GreedyOptimizer.initial_fill (total_discharge : ℚ) (fill_idx : List ℕ) :
    List ℚ :=
  if fill_idx.isEmpty then []
  else List.replicate fill_idx.length (total_discharge / fill_idx.length)

/-- Embeds `GreedyOptimizer._cap_single`: the plant capacity of one fill
month at volume delta `dV`.  Note the source uses `levels.nrl + dV` — the
NRL *level* — as the argument of the volume → mark curve. -/
def GreedyOptimizer.cap_single (geom : Geometry) (levels : StaticLevels)
    (series : HydrologicalSeries) (dV : ℚ) (idx : ℕ) : ℚ :=
  let q := series.domestic_inflows.getD idx 0 -
    dV * 1000000000 / SECONDS_PER_MONTH
  let avg_h := compute_headwater_mark (levels.nrl + dV) geom
  compute_domestic_capacity q (avg_h - compute_lowwater_mark q geom)

/-- Embeds `GreedyOptimizer._recompute_caps`: walk the fill months in order,
threading the running volume `vol`, which starts at `levels.nrl` (again the
*level* used as a volume, kept faithfully). -/
def GreedyOptimizer.recompute_caps (geom : Geometry) (levels : StaticLevels)
    (series : HydrologicalSeries) : ℚ → List ℚ → List ℕ → List ℚ
  | _, [], _ => []
  | _, _ :: _, [] => []
  | vol, dV :: vols, idx :: idxs =>
    let q := series.domestic_inflows.getD idx 0 -
      dV * 1000000000 / SECONDS_PER_MONTH
    let vol_end := vol + dV
    let avg_h := (compute_headwater_mark vol geom +
      compute_headwater_mark vol_end geom) / 2
    (compute_domestic_capacity q (avg_h - compute_lowwater_mark q geom)) ::
      GreedyOptimizer.recompute_caps geom levels series vol_end vols idxs

/-- Embeds the inner `while caps[i] < 1.05·n_gar and v[i] ≥ 0.01` loop of
`GreedyOptimizer._balance_fill`: move 0.01 km³ from month `i` to the current
argmax month `j` and recompute exactly the two touched capacities.  `fuel`
bounds the iterations. -/
def GreedyOptimizer.balanceWhile (geom : Geometry) (levels : StaticLevels)
    (series : HydrologicalSeries) (f_idx : List ℕ) (i idx : ℕ) (n_gar : ℚ) :
    ℕ → List ℚ × List ℚ → Option (List ℚ × List ℚ)
  | fuel, (v, caps) =>
    if caps.getD i 0 < 1.05 * n_gar ∧ v.getD i 0 ≥ 0.01 then
      match fuel with
      | 0 => none
      | fuel + 1 =>
        let j := npArgmax caps
        let v1 := v.set j (v.getD j 0 + 0.01)
        let v2 := v1.set i (v1.getD i 0 - 0.01)
        let caps1 := caps.set i
          (GreedyOptimizer.cap_single geom levels series (v2.getD i 0) idx)
        let caps2 := caps1.set j
          (GreedyOptimizer.cap_single geom levels series (v2.getD j 0)
            (f_idx.getD j 0))
        GreedyOptimizer.balanceWhile geom levels series f_idx i idx n_gar fuel
          (v2, caps2)
    else some (v, caps)

/-- Embeds the outer `for i, idx in enumerate(f_idx)` loop of
`GreedyOptimizer._balance_fill`, threading `(v, caps)` through the inner
while loops. -/
def GreedyOptimizer.balanceFor (geom : Geometry) (levels : StaticLevels)
    (series : HydrologicalSeries) (f_idx : List ℕ) (fuel : ℕ) :
    ℕ → List ℕ → List ℚ × List ℚ → Option (List ℚ × List ℚ)
  | _, [], st => some st
  | i, idx :: rest, st =>
    match GreedyOptimizer.balanceWhile geom levels series f_idx i idx
        (series.guaranteed_capacity.getD idx 0) fuel st with
    | none => none
    | some st' =>
      GreedyOptimizer.balanceFor geom levels series f_idx fuel (i + 1) rest
        st'

/-- Embeds `GreedyOptimizer._balance_fill` (its `disc_vols` parameter is
unused in the source and dropped here): returns `[]` for no fill months,
otherwise recomputes the initial capacities and runs the balancing loops. -/
def GreedyOptimizer.balance_fill (geom : Geometry) (levels : StaticLevels)
    (series : HydrologicalSeries) (vols : List ℚ) (f_idx : List ℕ)
    (fuel : ℕ) : Option (List ℚ) :=
  if f_idx.isEmpty then some []
  else
    (GreedyOptimizer.balanceFor geom levels series f_idx fuel 0 f_idx
      (vols,
        GreedyOptimizer.recompute_caps geom levels series levels.nrl vols
          f_idx)).map (·.1)

/-- Embeds the plan-assembly loop at the end of
`GreedyOptimizer.compute_dV`: walk `modes` popping sized discharge volumes
(negated) and balanced fill volumes (kept positive).  Exhausting a volume
list early is Python's `IndexError` (`none`); the source also never revisits
leftover volumes, which cannot occur because the index lists partition
`modes`. -/
def assemblePlan : List OperationMode → List ℚ → List ℚ → Option (List ℚ)
  | [], _, _ => some []
  | OperationMode.DISCHARGE :: ms, d :: ds, fs =>
    (assemblePlan ms ds fs).map (fun t => (-d) :: t)
  | OperationMode.FILL :: ms, ds, f :: fs =>
    (assemblePlan ms ds fs).map (fun t => f :: t)
  | OperationMode.DISCHARGE :: _, [], _ => none
  | OperationMode.FILL :: _, _, [] => none

/-- Embeds `wec/optimizers/greedy.py::GreedyOptimizer.compute_dV` up to (but
not including) the final closure `assert`. -/
def GreedyOptimizer.compute_dV_raw (geom : Geometry) (levels : StaticLevels)
    (series : HydrologicalSeries) (modes : List OperationMode) (fuel : ℕ) :
    Option (List ℚ) :=
  match GreedyOptimizer.calc_discharge geom levels series fuel
      (modeIndices OperationMode.DISCHARGE modes) with
  | none => none
  | some disc_vol =>
    match GreedyOptimizer.balance_fill geom levels series
        (GreedyOptimizer.initial_fill disc_vol.sum
          (modeIndices OperationMode.FILL modes))
        (modeIndices OperationMode.FILL modes) fuel with
    | none => none
    | some fill_vol => assemblePlan modes disc_vol fill_vol

/-- Embeds `GreedyOptimizer.compute_dV` including the final
`assert abs(sum(dv)) < 1e-6` (a failing assert is the fatal
`AssertionError`, modelled as `none`). -/
def GreedyOptimizer.compute_dV (geom : Geometry) (levels : StaticLevels)
    (series : HydrologicalSeries) (modes : List OperationMode) (fuel : ℕ) :
    Option (List ℚ) :=
  (GreedyOptimizer.compute_dV_raw geom levels series modes fuel).bind
    fun dv => if |dv.sum| < 1 / 1000000 then some dv else none

/-- One row of the report table emitted by
`wec/core/reservoir_simulator.py::ReservoirSimulator.run`; `dV_report` is
the `"dV, км³"` column (`dV` for DISCHARGE months, `-dV` for FILL months). -/
structure SimRecord where
  month : ℤ
  mode : OperationMode
  q_byt : ℚ
  dV_report : ℚ
  start_volume : ℚ
  end_volume : ℚ
  start_head : ℚ
  end_head : ℚ
  z_low : ℚ
  pressure : ℚ
  n_gar : ℚ
  n_ges : ℚ
deriving DecidableEq, Repr

/-- The `_nrl_volume` pre-computed in `ReservoirSimulator.__init__`:
`np.interp(levels.nrl, geom.headwater_marks, geom.average_volumes)`. -/
def ReservoirSimulator.nrl_volume (geom : Geometry) (levels : StaticLevels) :
    ℚ :=
  interp levels.nrl geom.headwater_marks geom.average_volumes

/-- Embeds `ReservoirSimulator._calc_discharge_volumes`: the same sizing
loop for every discharge index.  The source's `start_volume` parameter is
mutated (`start_volume -= dV`) but never read afterwards; it is kept here
and equally unused. -/
def ReservoirSimulator.calc_discharge_volumes (geom : Geometry)
    (levels : StaticLevels) (series : HydrologicalSeries)
    (_start_volume : ℚ) (fuel : ℕ) : List ℕ → Option (List ℚ)
  | [] => some []
  | idx :: rest =>
    match dischargeSizingLoop geom levels
        (series.domestic_inflows.getD idx 0)
        (series.guaranteed_capacity.getD idx 0) fuel 0 with
    | none => none
    | some dV =>
      match ReservoirSimulator.calc_discharge_volumes geom levels series
          _start_volume fuel rest with
      | none => none
      | some tail => some (dV :: tail)

/-- Embeds `ReservoirSimulator._initial_fill_distribution`. -/
def ReservoirSimulator.initial_fill_distribution (total_discharge : ℚ)
    (fill_indices : List ℕ) : List ℚ :=
  if fill_indices.isEmpty then []
  else List.replicate fill_indices.length
    (total_discharge / fill_indices.length)

/-- Embeds `ReservoirSimulator._calc_fill_capacity_single`: unlike the
greedy optimizer's `_cap_single`, it receives the start *volume* and
averages the start and end headwater marks. -/
def ReservoirSimulator.calc_fill_capacity_single (geom : Geometry)
    (series : HydrologicalSeries) (dV : ℚ) (idx : ℕ) (start_volume : ℚ) :
    ℚ :=
  let q_byt := series.domestic_inflows.getD idx 0
  let vol_end := start_volume + dV
  let avg_head := (compute_headwater_mark start_volume geom +
    compute_headwater_mark vol_end geom) / 2
  let plant_inflow := q_byt - dV * 1000000000 / SECONDS_PER_MONTH
  compute_domestic_capacity plant_inflow
    (avg_head - compute_lowwater_mark plant_inflow geom)

/-- Embeds `ReservoirSimulator._recompute_fill_capacities`: thread the
running volume from `start_volume` through the fill months. -/
def ReservoirSimulator.recompute_fill_capacities (geom : Geometry)
    (series : HydrologicalSeries) : ℚ → List ℚ → List ℕ → List ℚ
  | _, [], _ => []
  | _, _ :: _, [] => []
  | vol, dV :: vols, idx :: idxs =>
    let q_byt := series.domestic_inflows.getD idx 0
    let vol_end := vol + dV
    let avg_head := (compute_headwater_mark vol geom +
      compute_headwater_mark vol_end geom) / 2
    let plant_inflow := q_byt - dV * 1000000000 / SECONDS_PER_MONTH
    (compute_domestic_capacity plant_inflow
      (avg_head - compute_lowwater_mark plant_inflow geom)) ::
      ReservoirSimulator.recompute_fill_capacities geom series vol_end vols
        idxs

/-- Embeds the inner while loop of
`ReservoirSimulator._balance_fill_months` (same shape as the greedy one but
recomputing capacities through `_calc_fill_capacity_single` with the fixed
start volume). -/
def ReservoirSimulator.balanceWhile (geom : Geometry)
    (series : HydrologicalSeries) (fill_indices : List ℕ)
    (start_volume : ℚ) (i idx : ℕ) (n_gar : ℚ) :
    ℕ → List ℚ × List ℚ → Option (List ℚ × List ℚ)
  | fuel, (v, caps) =>
    if caps.getD i 0 < 1.05 * n_gar ∧ v.getD i 0 ≥ 0.01 then
      match fuel with
      | 0 => none
      | fuel + 1 =>
        let j := npArgmax caps
        let v1 := v.set j (v.getD j 0 + 0.01)
        let v2 := v1.set i (v1.getD i 0 - 0.01)
        let caps1 := caps.set i
          (ReservoirSimulator.calc_fill_capacity_single geom series
            (v2.getD i 0) idx start_volume)
        let caps2 := caps1.set j
          (ReservoirSimulator.calc_fill_capacity_single geom series
            (v2.getD j 0) (fill_indices.getD j 0) start_volume)
        ReservoirSimulator.balanceWhile geom series fill_indices start_volume
          i idx n_gar fuel (v2, caps2)
    else some (v, caps)

/-- The outer `for i, idx in enumerate(fill_indices)` loop of
`ReservoirSimulator._balance_fill_months`. -/
def ReservoirSimulator.balanceFor (geom : Geometry)
    (series : HydrologicalSeries) (fill_indices : List ℕ)
    (start_volume : ℚ) (fuel : ℕ) :
    ℕ → List ℕ → List ℚ × List ℚ → Option (List ℚ × List ℚ)
  | _, [], st => some st
  | i, idx :: rest, st =>
    match ReservoirSimulator.balanceWhile geom series fill_indices
        start_volume i idx (series.guaranteed_capacity.getD idx 0) fuel
        st with
    | none => none
    | some st' =>
      ReservoirSimulator.balanceFor geom series fill_indices start_volume
        fuel (i + 1) rest st'

/-- Embeds `ReservoirSimulator._balance_fill_months` (its
`discharge_volumes` parameter is unused in the source and dropped here). -/
def ReservoirSimulator.balance_fill_months (geom : Geometry)
    (series : HydrologicalSeries) (fill_volumes : List ℚ)
    (fill_indices : List ℕ) (start_volume : ℚ) (fuel : ℕ) :
    Option (List ℚ) :=
  if fill_indices.isEmpty then some []
  else
    (ReservoirSimulator.balanceFor geom series fill_indices start_volume
      fuel 0 fill_indices
      (fill_volumes,
        ReservoirSimulator.recompute_fill_capacities geom series
          start_volume fill_volumes fill_indices)).map (·.1)

/-- Embeds the sequential month loop of `ReservoirSimulator.run`: walk the
four parallel sequences, pop `dV` from the discharge or fill queue according
to the mode, build one record, and advance the state volume.  Popping an
exhausted queue is Python's `IndexError` (`none`). -/
def ReservoirSimulator.monthLoop (geom : Geometry) (levels : StaticLevels) :
    List ℤ → List ℚ → List ℚ → List OperationMode → ℚ → List ℚ → List ℚ →
    Option (List SimRecord)
  | [], _, _, _, _, _, _ => some []
  | month :: months, q_byt :: qs, n_gar :: ns, mode :: ms, vol, dq, fq =>
    let pop : Option (ℚ × List ℚ × List ℚ) :=
      match mode, dq, fq with
      | OperationMode.DISCHARGE, d :: dq', _ => some (d, dq', fq)
      | OperationMode.FILL, _, f :: fq' => some (f, dq, fq')
      | _, _, _ => none
    match pop with
    | none => none
    | some (dV, dq', fq') =>
      let start_volume := vol
      let end_volume := if mode = OperationMode.DISCHARGE then
          start_volume - dV else start_volume + dV
      let start_head := compute_headwater_mark start_volume geom
      let end_head := compute_headwater_mark end_volume geom
      let avg_head := (start_head + end_head) / 2
      let reservoir_delta_flow := dV * 1000000000 / SECONDS_PER_MONTH
      let plant_inflow := if mode = OperationMode.DISCHARGE then
          q_byt + reservoir_delta_flow else q_byt - reservoir_delta_flow
      let z_low := compute_lowwater_mark plant_inflow geom
      let pressure := avg_head - z_low
      let n_ges := min (compute_domestic_capacity plant_inflow pressure)
        levels.installed_capacity
      (ReservoirSimulator.monthLoop geom levels months qs ns ms end_volume
        dq' fq').map fun recs =>
        { month := month, mode := mode, q_byt := q_byt
          dV_report := if mode = OperationMode.DISCHARGE then dV else -dV
          start_volume := start_volume, end_volume := end_volume
          start_head := start_head, end_head := end_head, z_low := z_low
          pressure := pressure, n_gar := n_gar, n_ges := n_ges } :: recs
  | _, _, _, _, _, _, _ => none

/-- Embeds `wec/core/reservoir_simulator.py::ReservoirSimulator.run`
together with the constructor's length check (a `ValueError` at
construction, modelled as `none`; the guard on the series' internal lengths
is `HydrologicalSeries.__post_init__`, which must have succeeded for the
object to exist).  `run` takes no volume-change plan: it sizes the
discharge volumes itself with the sizing loop and spreads/balances them
over the fill months before replaying. -/
def ReservoirSimulator.run (geom : Geometry) (levels : StaticLevels)
    (series : HydrologicalSeries) (modes : List OperationMode) (fuel : ℕ) :
    Option (List SimRecord) :=
  if series.months.length = modes.length ∧
      series.months.length = series.domestic_inflows.length ∧
      series.months.length = series.guaranteed_capacity.length then
    match ReservoirSimulator.calc_discharge_volumes geom levels series
        (ReservoirSimulator.nrl_volume geom levels) fuel
        (modeIndices OperationMode.DISCHARGE modes) with
    | none => none
    | some discharge_volumes =>
      match ReservoirSimulator.balance_fill_months geom series
          (ReservoirSimulator.initial_fill_distribution
            discharge_volumes.sum (modeIndices OperationMode.FILL modes))
          (modeIndices OperationMode.FILL modes)
          (ReservoirSimulator.nrl_volume geom levels) fuel with
      | none => none
      | some fill_volumes =>
        ReservoirSimulator.monthLoop geom levels series.months
          series.domestic_inflows series.guaranteed_capacity modes
          (ReservoirSimulator.nrl_volume geom levels) discharge_volumes
          fill_volumes
  else none

/-- `np.arange(start, stop, step)` for a positive step: the values
`start + k·step` with `k < ⌈(stop − start)/step⌉`; empty when `step ≤ 0`
(the optimizer is only instantiated with positive steps). -/
def npArange (start stop step : ℚ) : List ℚ :=
  if step > 0 then
    (List.range ⌈(stop - start) / step⌉₊).map fun k => start + k * step
  else []

/-- `np.argmin(|grid − x|)`: index of the first minimal distance. -/
def npArgminAbs (grid : List ℚ) (x : ℚ) : ℕ :=
  (grid.foldl
    (fun (st : ℕ × ℕ × ℚ) v =>
      let (i, best_idx, best) := st
      if |v - x| < best then (i + 1, i, |v - x|) else (i + 1, best_idx, best))
    (0, 0, |grid.headD 0 - x|)).2.1

/-- `np.isclose(a, b)` with the default tolerances
(`atol = 1e-8`, `rtol = 1e-5`) on finite values. -/
def npIsclose (a b : ℚ) : Prop :=
  |a - b| ≤ 1 / 100000000 + 1 / 100000 * |b|

instance (a b : ℚ) : Decidable (npIsclose a b) := by
  unfold npIsclose; infer_instance

/-- A cell of the DP cost tables of
`wec/optimizers/dynamic.py::DynamicOptimizer.compute_dV`: `none` is the
`INF` initial value, `some (d, e)` holds `def_cost` and `en_cost`. -/
abbrev DPCell := Option (ℚ × ℚ)

/-- `np.argmin(def_cost[n_months])` over a row that may contain `INF`
(`none`): first index of the minimal deficit, `none` above every finite
value (an all-`INF` row yields index 0, as `np.argmin` does on equal
values). -/
def dpArgminRow (row : List DPCell) : ℕ :=
  (row.foldl
    (fun (st : ℕ × ℕ × DPCell) c =>
      let (i, best_idx, best) := st
      let lt : Bool :=
        match c, best with
        | some (d, _), some (d', _) => decide (d < d')
        | some _, none => true
        | none, _ => false
      if lt then (i + 1, i, c) else (i + 1, best_idx, best))
    (0, 0, row.headD none)).2.1

/-- One inner-loop body (`for j, vn in enumerate(grid)`) of the Bellman
update: apply the mode's sign constraint and the dead-level constraint,
compute deficit and energy for the transition `v → vn`, and update the cell
`j` of the month-`t+1` row (and the predecessor entry) when the
lexicographic comparison `new_def < cur ∨ (isclose ∧ new_en < cur_en)`
improves it.  The state is the pair (next cost row, predecessor row),
mutated in `j`-then-`i` order exactly as the source does. -/
def dpUpdate (geom : Geometry) (levels : StaticLevels) (q_byt n_gar : ℚ)
    (mode : OperationMode) (v z_start : ℚ) (cost : ℚ × ℚ) (i : ℕ)
    (st : List DPCell × List ℤ) (jvn : ℕ × ℚ) : List DPCell × List ℤ :=
  let (j, vn) := jvn
  let dV := vn - v
  if (mode = OperationMode.DISCHARGE ∧ dV > 0) ∨
      (mode = OperationMode.FILL ∧ dV < 0) then st
  else
    let z_end := compute_headwater_mark vn geom
    if z_start < levels.dead - 1 / 1000000000 ∨
        z_end < levels.dead - 1 / 1000000000 then st
    else
      let q := q_byt - dV * 1000000000 / SECONDS_PER_MONTH
      let z_low := compute_lowwater_mark q geom
      let head := (z_start + z_end) / 2 - z_low
      let n_ges := min (compute_domestic_capacity q head)
        levels.installed_capacity
      let deficit := max 0 (n_gar - n_ges)
      let energy := n_ges * SECONDS_PER_MONTH / 3600
      let new_def := cost.1 + deficit
      let new_en := cost.2 - energy
      let better : Bool :=
        match st.1.getD j none with
        | none => true
        | some (d, e) =>
          decide (new_def < d ∨ (npIsclose new_def d ∧ new_en < e))
      if better then (st.1.set j (some (new_def, new_en)), st.2.set j i)
      else st

/-- One month of the Bellman loop (`for i, v in enumerate(grid)` with the
unreachable-state `continue`), producing the next cost row and the
predecessor row (initialized to `-1`, as in the source). -/
def dpMonth (geom : Geometry) (levels : StaticLevels) (q_byt n_gar : ℚ)
    (mode : OperationMode) (grid : List ℚ) (row : List DPCell) :
    List DPCell × List ℤ :=
  grid.enum.foldl
    (fun st iv =>
      let (i, v) := iv
      match row.getD i none with
      | none => st
      | some cost =>
        let z_start := compute_headwater_mark v geom
        grid.enum.foldl (dpUpdate geom levels q_byt n_gar mode v z_start
          cost i) st)
    (List.replicate grid.length none, List.replicate grid.length (-1))

/-- The month loop of the DP (`for t in range(n_months)`), returning the
final cost row and the per-month predecessor rows in forward order. -/
def dpForward (geom : Geometry) (levels : StaticLevels) (grid : List ℚ) :
    List (ℚ × ℚ × OperationMode) → List DPCell →
    List DPCell × List (List ℤ)
  | [], row => (row, [])
  | (q_byt, n_gar, mode) :: rest, row =>
    let (row', prevT) := dpMonth geom levels q_byt n_gar mode grid row
    let (final, prevs) := dpForward geom levels grid rest row'
    (final, prevT :: prevs)

/-- Python list/array indexing with a possibly negative index
(`l[-1]` is the last element); out of range is `IndexError` (`none`). -/
def pyGet {α : Type} (l : List α) (idx : ℤ) : Option α :=
  if 0 ≤ idx then l.get? idx.toNat
  else if -(l.length : ℤ) ≤ idx then l.get? ((l.length : ℤ) + idx).toNat
  else none

/-- The backward predecessor walk of the reconstruction
(`for t in range(n_months - 1, -1, -1): states.append(prev[t, states[-1]])`),
taking the predecessor rows in reverse order and producing
`[s_n, s_(n-1), …, s_0]`. -/
def dpBacktrack : List (List ℤ) → ℤ → Option (List ℤ)
  | [], cur => some [cur]
  | prevT :: rest, cur => do
    let p ← pyGet prevT cur
    let tail ← dpBacktrack rest p
    pure (cur :: tail)

/-- The month-wise data rows `(q_byt, n_gar, mode)` the DP iterates over. -/
def dpRows (series : HydrologicalSeries) (modes : List OperationMode) :
    List (ℚ × ℚ × OperationMode) :=
  series.domestic_inflows.zip (series.guaranteed_capacity.zip modes)

/-- The state grid built by `DynamicOptimizer.compute_dV`:
`np.arange(dead_volume, nrl_volume + step, step)` with `grid[0]` pinned to
the dead volume and `grid[-1]` clamped to the NRL volume. -/
def dpGrid (geom : Geometry) (levels : StaticLevels) (step : ℚ) : List ℚ :=
  let nrl_volume := interp levels.nrl geom.headwater_marks
    geom.average_volumes
  let dead_volume := interp levels.dead geom.headwater_marks
    geom.average_volumes
  let g := npArange dead_volume (nrl_volume + step) step
  let g := g.set 0 dead_volume
  g.set (g.length - 1) (min (g.getLast?.getD 0) nrl_volume)

/-- The full cost table run of `DynamicOptimizer.compute_dV`: final cost
row, predecessor rows, the start index and the chosen terminal index
(with the best-effort `argmin` fallback when the start state is
unreachable at the end of the year). -/
def dpSolve (geom : Geometry) (levels : StaticLevels)
    (series : HydrologicalSeries) (modes : List OperationMode) (step : ℚ) :
    List DPCell × List (List ℤ) × ℕ × ℕ :=
  let nrl_volume := interp levels.nrl geom.headwater_marks
    geom.average_volumes
  let grid := dpGrid geom levels step
  let start_idx := npArgminAbs grid nrl_volume
  let row0 : List DPCell :=
    (List.replicate grid.length none).set start_idx (some (0, 0))
  let (final, prevs) := dpForward geom levels grid (dpRows series modes) row0
  let end_idx :=
    match final.getD start_idx none with
    | none => dpArgminRow final
    | some _ => start_idx
  (final, prevs, start_idx, end_idx)

/-- The objective value of the DP run at its chosen terminal state:
`(def_cost[n_months, end_idx], en_cost[n_months, end_idx])`, `none` when
even the fallback terminal state is unreachable. -/
def DynamicOptimizer.objective (geom : Geometry) (levels : StaticLevels)
    (series : HydrologicalSeries) (modes : List OperationMode) (step : ℚ) :
    DPCell :=
  let (final, _, _, end_idx) := dpSolve geom levels series modes step
  final.getD end_idx none

/-- Embeds `wec/optimizers/dynamic.py::DynamicOptimizer.compute_dV`: build
the grid, run the Bellman table, choose the terminal state, walk the
predecessors backward and output consecutive volume differences.  `none`
models an `IndexError` during reconstruction (never hit on a non-empty
grid). -/
def DynamicOptimizer.compute_dV (geom : Geometry) (levels : StaticLevels)
    (series : HydrologicalSeries) (modes : List OperationMode) (step : ℚ) :
    Option (List ℚ) :=
  match dpBacktrack (dpSolve geom levels series modes step).2.1.reverse
      ((dpSolve geom levels series modes step).2.2.2 : ℤ) with
  | none => none
  | some statesRev =>
    match statesRev.reverse.mapM (pyGet (dpGrid geom levels step)) with
    | none => none
    | some volumes =>
      some ((volumes.zip volumes.tail).map fun p => p.2 - p.1)

/-- `np.argmin` over plain rationals: first index of the minimum. -/
def npArgminQ (seq : List ℚ) : ℕ :=
  (seq.foldl
    (fun (st : ℕ × ℕ × ℚ) v =>
      let (i, best_idx, best) := st
      if v < best then (i + 1, i, v) else (i + 1, best_idx, best))
    (0, 0, seq.headD 0)).2.1

/-- `np.argsort`: the indices of `seq` in nondecreasing order of value.
Modelled with a stable insertion sort (for a fixed input, `np.argsort` also
returns one fixed permutation, so determinism is unaffected by the
tie-breaking choice). -/
def npArgsort (seq : List ℚ) : List ℕ :=
  (seq.enum.toArray.insertionSort (fun a b => a.2 ≤ b.2)).toList.map (·.1)

/-- `np.clip(x, lo, hi)`. -/
def npClip (x lo hi : ℚ) : ℚ := min (max x lo) hi

/-- Embeds `wec/optimizers/gwo.py::GreyWolfOptimizer._score`: replay the
candidate's end-of-month volumes (re-clipped), accumulate squared deficits
and add the `100·(v_final − v_nrl)²` terminal penalty. -/
def GreyWolfOptimizer.score (geom : Geometry) (levels : StaticLevels)
    (series : HydrologicalSeries) (v_nrl v_dead : ℚ) (vols : List ℚ) : ℚ :=
  let final :=
    vols.enum.foldl
      (fun (st : ℚ × ℚ) tv =>
        let (cost, v_prev) := st
        let (t, v_raw) := tv
        let v_end := npClip v_raw v_dead v_nrl
        let dV := v_end - v_prev
        let q := series.domestic_inflows.getD t 0 -
          dV * 1000000000 / SECONDS_PER_MONTH
        let head_start := compute_headwater_mark v_prev geom
        let head_end := compute_headwater_mark v_end geom
        let head := (head_start + head_end) / 2 -
          compute_lowwater_mark q geom
        let n_ges := min (compute_domestic_capacity q head)
          levels.installed_capacity
        let deficit := max 0 (series.guaranteed_capacity.getD t 0 - n_ges)
        (cost + deficit ^ 2, v_end))
      (0, v_nrl)
  final.1 + 100 * (final.2 - v_nrl) ^ 2

/-- Pin the last entry of a candidate row to the NRL volume
(`pack[:, -1] = v_nrl` / `pack[i, -1] = v_nrl`). -/
def gwoPinLast (v_nrl : ℚ) (row : List ℚ) : List ℚ :=
  row.set (row.length - 1) v_nrl

/-- The initial wolf pack: `rng.uniform(v_dead, v_nrl, (pack_size,
n_months))` drawn row-major from the unit-interval stream `rng` (draw `k`
is `v_dead + rng k · (v_nrl − v_dead)`), with the final column pinned. -/
def gwoInitPack (rng : ℕ → ℚ) (pack_size n_months : ℕ) (v_dead v_nrl : ℚ) :
    List (List ℚ) :=
  (List.range pack_size).map fun i =>
    gwoPinLast v_nrl ((List.range n_months).map fun j =>
      v_dead + rng (i * n_months + j) * (v_nrl - v_dead))

/-- One candidate-cell update of the Grey-Wolf iteration: the three pulls
toward the α/β/δ attractors, averaged.  `alpha`, `beta`, `delta` are read
from the *current* pack (they are numpy views in the source, so writes to an
attractor row are visible to later reads), and the six uniform draws are
consumed in source order starting at stream index `base`. -/
def gwoCell (rng : ℕ → ℚ) (base : ℕ) (a : ℚ) (pack : List (List ℚ))
    (oa ob oc : ℕ) (i j : ℕ) : ℚ :=
  let x := (pack.getD i []).getD j 0
  let alphaj := (pack.getD oa []).getD j 0
  let betaj := (pack.getD ob []).getD j 0
  let deltaj := (pack.getD oc []).getD j 0
  let A1 := a * (2 * rng base - 1)
  let C1 := 2 * rng (base + 1)
  let X1 := alphaj - A1 * |C1 * alphaj - x|
  let A2 := a * (2 * rng (base + 2) - 1)
  let C2 := 2 * rng (base + 3)
  let X2 := betaj - A2 * |C2 * betaj - x|
  let A3 := a * (2 * rng (base + 4) - 1)
  let C3 := 2 * rng (base + 5)
  let X3 := deltaj - A3 * |C3 * deltaj - x|
  (X1 + X2 + X3) / 3

/-- One iteration of `GreyWolfOptimizer.compute_dV`'s main loop: rank the
pack, then update every candidate cell by cell (writes are immediately
visible, as with numpy views), re-clip and re-pin each row after its
month loop, and recompute the scores. -/
def gwoIteration (rng : ℕ → ℚ) (geom : Geometry) (levels : StaticLevels)
    (series : HydrologicalSeries) (pack_size n_months n_iter : ℕ)
    (v_dead v_nrl : ℚ) (it : ℕ) (st : List (List ℚ) × List ℚ) :
    List (List ℚ) × List ℚ :=
  let (pack, scores) := st
  let order := npArgsort scores
  let oa := order.getD 0 0
  let ob := order.getD 1 0
  let oc := order.getD 2 0
  let a : ℚ := 2 - 2 * it / max 1 (n_iter - 1)
  let pack' :=
    (List.range pack_size).foldl
      (fun pack i =>
        let packRow :=
          (List.range n_months).foldl
            (fun pack j =>
              let base := pack_size * n_months +
                (it * pack_size * n_months + i * n_months + j) * 6
              pack.set i ((pack.getD i []).set j
                (gwoCell rng base a pack oa ob oc i j)))
            pack
        packRow.set i (gwoPinLast v_nrl
          ((packRow.getD i []).map fun x => npClip x v_dead v_nrl)))
      pack
  (pack', pack'.map (GreyWolfOptimizer.score geom levels series v_nrl
    v_dead))

/-- Embeds `wec/optimizers/gwo.py::GreyWolfOptimizer.compute_dV` over an
explicit unit-interval random stream `rng` (the model of
`np.random.default_rng(seed)`: a pure function of the seed, consumed in
draw order).  Returns the consecutive differences of `v_nrl` followed by
the best candidate's volumes. -/
def GreyWolfOptimizer.compute_dV (rng : ℕ → ℚ) (geom : Geometry)
    (levels : StaticLevels) (series : HydrologicalSeries)
    (pack_size n_iter : ℕ) : List ℚ :=
  let n_months := series.months.length
  let v_nrl := interp levels.nrl geom.headwater_marks geom.average_volumes
  let v_dead := interp levels.dead geom.headwater_marks geom.average_volumes
  let pack0 := gwoInitPack rng pack_size n_months v_dead v_nrl
  let scores0 := pack0.map (GreyWolfOptimizer.score geom levels series v_nrl
    v_dead)
  let final :=
    (List.range n_iter).foldl
      (fun st it => gwoIteration rng geom levels series pack_size n_months
        n_iter v_dead v_nrl it st)
      (pack0, scores0)
  let best := final.1.getD (npArgminQ final.2) []
  let volumes := v_nrl :: best
  (volumes.zip volumes.tail).map fun p => p.2 - p.1

/-- The window scan underlying the no-isolated-FILL check: `false` exactly
when some three consecutive elements read DISCHARGE, FILL, DISCHARGE. -/
def noDFDScan : List OperationMode → Bool
  | OperationMode.DISCHARGE :: OperationMode.FILL ::
      OperationMode.DISCHARGE :: _ => false
  | _ :: rest => noDFDScan rest
  | [] => true

/-- No month is an isolated FILL flanked by DISCHARGE on both sides, with
the neighbour relation taken cyclically across the year boundary: scanning
`modes ++ modes.take 2` visits exactly the cyclic windows
`(pred i, i, succ i)` for every position `i`, the last two windows being
`(modes[n-2], modes[n-1], modes[0])` and
`(modes[n-1], modes[0], modes[1])`. -/
def NoIsolatedFillCyclic (modes : List OperationMode) : Prop :=
  noDFDScan (modes ++ modes.take 2) = true

instance (modes : List OperationMode) :
    Decidable (NoIsolatedFillCyclic modes) :=
  inferInstanceAs (Decidable (_ = true))

/-- The geometry of the end-to-end dataset fixed by the spec (and by
`tests/conftest.py::geometry`). -/
def testGeometry : Geometry where
  headwater_marks := [87, 89, 91, 93, 95, 97, 99, 101, 103]
  average_volumes := [0.1, 0.4, 0.9, 2.3, 4.6, 8.8, 14.6, 21, 29.3]
  lowwater_marks := [81, 83, 85, 87, 89, 91]
  lowwater_inflows := [100, 460, 1200, 2250, 3800, 5100]

/-- The static levels of the end-to-end dataset. -/
def testLevels : StaticLevels where
  nrl := 102
  dead := 100
  installed_capacity := 500

/-- The hydrological series of the end-to-end dataset. -/
def testSeries : HydrologicalSeries where
  months := [1, 2, 3, 4, 5, 6, 7, 8, 9, 10, 11, 12]
  domestic_inflows :=
    [540, 450, 740, 2850, 3500, 1100, 750, 630, 450, 465, 560, 410]
  guaranteed_capacity :=
    [130, 130, 135, 220, 200, 190, 50, 50, 50, 140, 140, 140]

/-- The mode list the spec requires on the end-to-end dataset. -/
def expectedModes : List OperationMode :=
  [OperationMode.DISCHARGE, OperationMode.DISCHARGE, OperationMode.DISCHARGE,
   OperationMode.FILL, OperationMode.FILL, OperationMode.DISCHARGE,
   OperationMode.FILL, OperationMode.FILL, OperationMode.FILL,
   OperationMode.DISCHARGE, OperationMode.DISCHARGE, OperationMode.DISCHARGE]

/-- A small two-month instance used to evaluate the greedy optimizer and
the simulator concretely: a flat tailwater at mark 10 and a linear
volume-mark curve. -/
def miniGeometry : Geometry where
  headwater_marks := [40, 50]
  average_volumes := [0, 100]
  lowwater_marks := [10, 10]
  lowwater_inflows := [0, 1000]

/-- Levels for the small instance. -/
def miniLevels : StaticLevels where
  nrl := 50
  dead := 40
  installed_capacity := 100

/-- Levels for the small instance with the installed capacity below
`1.05 ×` the first month's guaranteed capacity (the sizing loop can then
never reach its target). -/
def miniLevelsLow : StaticLevels where
  nrl := 50
  dead := 40
  installed_capacity := 4

/-- Series for the small instance: one discharge month, one fill month. -/
def miniSeries : HydrologicalSeries where
  months := [1, 2]
  domestic_inflows := [10, 10]
  guaranteed_capacity := [4, 1]

/-- Modes for the small instance. -/
def miniModes : List OperationMode :=
  [OperationMode.DISCHARGE, OperationMode.FILL]

/-- Geometry of the two-month instance on which a finer DP grid step is
strictly worse than a coarser one: the tailwater curve has a narrow notch
(marks drop from 101.9 to 60 between inflows 285 and 300), so the deficit
is only small for the one discharge volume that lands in the notch. -/
def dpGeometry : Geometry where
  headwater_marks := [100, 101, 102]
  average_volumes := [0, 0.5, 1]
  lowwater_marks := [101.9, 101.9, 60, 60, 101.9, 101.9]
  lowwater_inflows := [0, 280, 285, 300, 305, 1000]

/-- Levels for the DP instance. -/
def dpLevels : StaticLevels where
  nrl := 102
  dead := 100
  installed_capacity := 1000

/-- Series for the DP instance. -/
def dpSeries : HydrologicalSeries where
  months := [1, 2]
  domestic_inflows := [100, 500]
  guaranteed_capacity := [100, 0]

/-- Modes for the DP instance. -/
def dpModes : List OperationMode :=
  [OperationMode.DISCHARGE, OperationMode.FILL]

/-- "The claim's objective order": `(d₁, e₁)` is strictly worse than
`(d₂, e₂)` when the cumulative deficit is strictly larger, or equal with a
strictly larger negative cumulative energy; an unreachable objective
(`none`) is worse than any reachable one. -/
def objWorseB (a b : DPCell) : Bool :=
  match a, b with
  | none, none => false
  | none, some _ => true
  | some _, none => false
  | some (d1, e1), some (d2, e2) =>
    decide (d2 < d1 ∨ (d1 = d2 ∧ e2 < e1))

/-- See `objWorseB`, as a proposition. -/
def objWorse (a b : DPCell) : Prop := objWorseB a b = true

instance (a b : DPCell) : Decidable (objWorse a b) :=
  inferInstanceAs (Decidable (objWorseB a b = true))

set_option maxRecDepth 40000
set_option maxHeartbeats 4000000

/-! ### Helper lemmas -/

theorem classifyModes_length (geom : Geometry) (levels : StaticLevels) :
    ∀ l : List (ℚ × ℚ), (classifyModes geom levels l).length = l.length := by
  intro l
  induction l with
  | nil => rfl
  | cons p rest ih => simp [classifyModes, ih]

theorem smooth_no_isolated_of_length_12 (l : List OperationMode)
    (h : l.length = 12) :
    NoIsolatedFillCyclic (smoothEdges (smoothInterior l)) := by
  rcases l with _ | ⟨m0, l⟩
  · exact absurd h (by simp)
  rcases l with _ | ⟨m1, l⟩
  · exact absurd h (by simp)
  rcases l with _ | ⟨m2, l⟩
  · exact absurd h (by simp)
  rcases l with _ | ⟨m3, l⟩
  · exact absurd h (by simp)
  rcases l with _ | ⟨m4, l⟩
  · exact absurd h (by simp)
  rcases l with _ | ⟨m5, l⟩
  · exact absurd h (by simp)
  rcases l with _ | ⟨m6, l⟩
  · exact absurd h (by simp)
  rcases l with _ | ⟨m7, l⟩
  · exact absurd h (by simp)
  rcases l with _ | ⟨m8, l⟩
  · exact absurd h (by simp)
  rcases l with _ | ⟨m9, l⟩
  · exact absurd h (by simp)
  rcases l with _ | ⟨m10, l⟩
  · exact absurd h (by simp)
  rcases l with _ | ⟨m11, l⟩
  · exact absurd h (by simp)
  rcases l with _ | ⟨m12, l⟩
  · cases m0 <;> cases m1 <;> cases m2 <;> cases m3 <;> cases m4 <;>
      cases m5 <;> cases m6 <;> cases m7 <;> cases m8 <;> cases m9 <;>
      cases m10 <;> cases m11 <;> decide
  · exact absurd h (by simp)

/-! ### C5 -/

unseal Rat.add Rat.mul Rat.sub Rat.inv Rat.ofScientific in
/-- C5: on the end-to-end dataset (marks `[87..103]`, volumes
`[0.1..29.3]`, lowwater `[81..91]`/`[100..5100]`, `nrl = 102`,
`dead = 100`, `installed = 500`, the twelve monthly inflows and guaranteed
capacities), `calc_modes` returns exactly
`[D, D, D, F, F, D, F, F, F, D, D, D]`. -/
theorem C5_calc_modes_end_to_end :
    MonthSelector.calc_modes testSeries testGeometry testLevels =
      expectedModes := by
  decide

/-! ### C9 -/

/-- C9: for every 12-month input, the mode list returned by `calc_modes`
contains no isolated single-month FILL flanked by DISCHARGE months, taking
neighbours cyclically across the year boundary. -/
theorem C9_no_isolated_fill (geom : Geometry) (levels : StaticLevels)
    (series : HydrologicalSeries)
    (h1 : series.domestic_inflows.length = 12)
    (h2 : series.guaranteed_capacity.length = 12) :
    NoIsolatedFillCyclic (MonthSelector.calc_modes series geom levels) := by
  have hlen : (classifyModes geom levels
      (series.domestic_inflows.zip series.guaranteed_capacity)).length
      = 12 := by
    simp [classifyModes_length, List.length_zip, h1, h2]
  exact smooth_no_isolated_of_length_12 _ hlen

unseal Rat.add Rat.mul Rat.sub Rat.inv Rat.ofScientific in
/-- Witness for C9 at the end-to-end dataset. -/
theorem C9_witness :
    NoIsolatedFillCyclic (MonthSelector.calc_modes testSeries testGeometry
      testLevels) :=
  C9_no_isolated_fill testGeometry testLevels testSeries (by decide)
    (by decide)

/-! ### C3 -/

/-- Counterexample for C3: the factory does **not** recognize the
`grey-wolf` key nor a `dynamic-programming` key (nor any solver-backed
key); both raise `ValueError`. -/
theorem C3_counterexample :
    get "grey-wolf" = Except.error "Unknown optimizer grey-wolf" ∧
      get "dynamic-programming" =
        Except.error "Unknown optimizer dynamic-programming" := by
  constructor <;> rfl

/-- C3 (amended): `get` resolves exactly the keys `"greedy"` and
`"dynamic"` to concrete optimizers and raises `ValueError` immediately on
every other key (including `grey-wolf`, `dynamic-programming` and any
solver-backed name). -/
theorem C3_amended_factory (s : String) :
    (s ≠ "greedy" → s ≠ "dynamic" →
      get s = Except.error ("Unknown optimizer " ++ s)) ∧
      get "greedy" = Except.ok OptimizerChoice.greedy ∧
      get "dynamic" = Except.ok OptimizerChoice.dynamic := by
  refine ⟨fun h1 h2 => ?_, rfl, rfl⟩
  simp [get, h1, h2]

/-- Witness for C3 at the concrete key `"gwo"`. -/
theorem C3_witness :
    get "gwo" = Except.error ("Unknown optimizer " ++ "gwo") :=
  (C3_amended_factory "gwo").1 (by decide) (by decide)

/-! ### C8 -/

unseal Rat.ofScientific in
/-- Counterexample for C8: `StaticLevels(nrl = 0, dead = 5,
installed_capacity = −1)` constructs successfully (the dataclass has no
`__post_init__`), yet violates every part of the invariant
`nrl > dead ≥ 0 ∧ installed_capacity > 0`. -/
theorem C8_counterexample :
    ¬((StaticLevels.mk 0 5 (-1)).nrl > (StaticLevels.mk 0 5 (-1)).dead ∧
      (StaticLevels.mk 0 5 (-1)).dead ≥ 0 ∧
      (StaticLevels.mk 0 5 (-1)).installed_capacity > 0) := by
  intro h
  exact absurd h.1 (by decide)

/-- C8 (amended): `StaticLevels` performs no construction-time validation
at all — any triple of values, including ones violating
`nrl > dead ≥ 0` or `installed_capacity > 0`, is stored unchanged and
construction never fails. -/
theorem C8_amended_no_validation (a b c : ℚ) :
    (StaticLevels.mk a b c).nrl = a ∧ (StaticLevels.mk a b c).dead = b ∧
      (StaticLevels.mk a b c).installed_capacity = c :=
  ⟨rfl, rfl, rfl⟩

/-! ### C7 -/

/-- C7: the Grey-Wolf optimizer is deterministic — its only source of
randomness is the injected stream (the model of
`np.random.default_rng(seed)`, a pure function of the seed), so two runs
with pointwise-equal streams and identical geometry, levels, series,
pack size and iteration count return identical delta sequences. -/
theorem C7_gwo_deterministic (rng1 rng2 : ℕ → ℚ) (geom : Geometry)
    (levels : StaticLevels) (series : HydrologicalSeries)
    (pack_size n_iter : ℕ) (h : ∀ n, rng1 n = rng2 n) :
    GreyWolfOptimizer.compute_dV rng1 geom levels series pack_size n_iter =
      GreyWolfOptimizer.compute_dV rng2 geom levels series pack_size
        n_iter := by
  have hr : rng1 = rng2 := funext h
  rw [hr]

/-- Witness for C7: two syntactically different but pointwise equal
streams on the small instance. -/
theorem C7_witness :
    GreyWolfOptimizer.compute_dV (fun _ => 1 / 2) miniGeometry miniLevels
        miniSeries 3 1 =
      GreyWolfOptimizer.compute_dV (fun _ => 2 / 4) miniGeometry miniLevels
        miniSeries 3 1 :=
  C7_gwo_deterministic (fun _ => 1 / 2) (fun _ => 2 / 4) miniGeometry
    miniLevels miniSeries 3 1 (fun _ => by norm_num)

/-! ### C6 -/

theorem optionMapM_length {α β : Type} (f : α → Option β) :
    ∀ (l : List α) (l' : List β), l.mapM f = some l' →
      l'.length = l.length := by
  intro l
  induction l with
  | nil =>
    intro l' h
    simp only [List.mapM_nil, pure, Option.some.injEq] at h
    subst h
    rfl
  | cons a t ih =>
    intro l' h
    rw [List.mapM_cons] at h
    rcases Option.bind_eq_some.mp h with ⟨b, hb, h2⟩
    rcases Option.bind_eq_some.mp h2 with ⟨bs, hbs, h3⟩
    simp only [pure, Option.some.injEq] at h3
    subst h3
    simpa using ih bs hbs

theorem dpForward_prevs_length (geom : Geometry) (levels : StaticLevels)
    (grid : List ℚ) :
    ∀ (rows : List (ℚ × ℚ × OperationMode)) (row : List DPCell),
      (dpForward geom levels grid rows row).2.length = rows.length := by
  intro rows
  induction rows with
  | nil => intro row; rfl
  | cons r rest ih =>
    intro row
    simp [dpForward, ih]

theorem dpBacktrack_length :
    ∀ (pl : List (List ℤ)) (cur : ℤ) (sts : List ℤ),
      dpBacktrack pl cur = some sts → sts.length = pl.length + 1 := by
  intro pl
  induction pl with
  | nil =>
    intro cur sts h
    simp only [dpBacktrack, pure, Option.some.injEq] at h
    subst h
    rfl
  | cons prevT rest ih =>
    intro cur sts h
    simp only [dpBacktrack, bind, Option.bind_eq_some, pure,
      Option.some.injEq] at h
    rcases h with ⟨p, _, tail, htail, h3⟩
    subst h3
    simp [ih p tail htail]

unseal Rat.add Rat.mul Rat.sub Rat.inv Rat.ofScientific in
theorem dpFinerWorseConcrete :
    objWorse
      (DynamicOptimizer.objective dpGeometry dpLevels dpSeries dpModes
        (3 / 10))
      (DynamicOptimizer.objective dpGeometry dpLevels dpSeries dpModes
        (1 / 2)) := by
  decide

/-- Counterexample for C6: on the two-month instance `dpGeometry` /
`dpLevels` / `dpSeries` / `dpModes`, the finer grid step `0.3` yields a
strictly worse objective (cumulative deficit `99.915`) than the coarser
step `0.5` (cumulative deficit `3383/3240 ≈ 1.044`). -/
theorem C6_counterexample :
    ¬(∀ fineStep coarseStep : ℚ, fineStep < coarseStep →
      ¬objWorse
        (DynamicOptimizer.objective dpGeometry dpLevels dpSeries dpModes
          fineStep)
        (DynamicOptimizer.objective dpGeometry dpLevels dpSeries dpModes
          coarseStep)) := by
  intro h
  exact h (3 / 10) (1 / 2) (by norm_num) dpFinerWorseConcrete

/-- C6 (amended): the dynamic optimizer's output length always equals the
input length (for any run that returns a plan, under the constructor-time
length checks), but a finer grid step can yield a strictly worse objective
value than a coarser one: step `3/10 < 1/2` is strictly worse on the
exhibited instance. -/
theorem C6_amended_dp :
    (∀ (geom : Geometry) (levels : StaticLevels)
        (series : HydrologicalSeries) (modes : List OperationMode)
        (step : ℚ) (dv : List ℚ),
        series.lengthsOk → modes.length = series.months.length →
        DynamicOptimizer.compute_dV geom levels series modes step =
          some dv →
        dv.length = series.months.length) ∧
      objWorse
        (DynamicOptimizer.objective dpGeometry dpLevels dpSeries dpModes
          (3 / 10))
        (DynamicOptimizer.objective dpGeometry dpLevels dpSeries dpModes
          (1 / 2)) ∧
      (3 / 10 : ℚ) < 1 / 2 := by
  refine ⟨?_, ?_, by norm_num⟩
  · intro geom levels series modes step dv hok hm hdv
    unfold DynamicOptimizer.compute_dV at hdv
    split at hdv
    · exact absurd hdv (by simp)
    rename_i statesRev hb
    split at hdv
    · exact absurd hdv (by simp)
    rename_i volumes hv
    simp only [Option.some.injEq] at hdv
    subst hdv
    have hsl : statesRev.length =
        (dpSolve geom levels series modes step).2.1.reverse.length + 1 :=
      dpBacktrack_length _ _ _ hb
    have hprevs : (dpSolve geom levels series modes step).2.1.length =
        (dpRows series modes).length := by
      simp only [dpSolve]
      exact dpForward_prevs_length _ _ _ _ _
    have hrows : (dpRows series modes).length = series.months.length := by
      rcases hok with ⟨h1, h2⟩
      simp only [dpRows, List.length_zip, ← h1, ← h2, hm]
      omega
    have hvl : volumes.length = statesRev.length := by
      have := optionMapM_length _ _ _ hv
      simpa using this
    rw [List.length_map, List.length_zip, List.length_tail]
    rw [List.length_reverse] at hsl
    omega
  · exact dpFinerWorseConcrete

unseal Rat.add Rat.mul Rat.sub Rat.inv Rat.ofScientific in
/-- Witness for C6 (part with hypotheses) on the DP instance at the coarse
step. -/
theorem C6_witness :
    [(-1 : ℚ) / 2, 1 / 2].length = dpSeries.months.length :=
  C6_amended_dp.1 dpGeometry dpLevels dpSeries dpModes (1 / 2)
    [(-1 : ℚ) / 2, 1 / 2] ⟨rfl, rfl⟩ rfl (by decide)

/-! ### C10 -/

theorem interpScan_gt_all (x : ℚ) :
    ∀ (ys xs : List ℚ) (x0 y0 : ℚ), ys.length ≤ xs.length →
      (∀ a ∈ xs, a < x) → interpScan x x0 y0 xs ys = ys.getLastD y0 := by
  intro ys
  induction ys with
  | nil =>
    intro xs x0 y0 _ _
    cases xs <;> simp [interpScan]
  | cons y1 ys' ih =>
    intro xs x0 y0 hlen hx
    match xs with
    | x1 :: xs' =>
      have hx1 : x1 < x := hx x1 (by simp)
      simp only [interpScan, if_neg (not_le.mpr hx1)]
      rw [List.getLastD_cons]
      exact ih xs' x1 y1 (by simpa using hlen)
        (fun a ha => hx a (by simp [ha]))

theorem interp_gt_all (x : ℚ) (xp fp : List ℚ)
    (hlen : fp.length ≤ xp.length) (hx : ∀ a ∈ xp, a < x) :
    interp x xp fp = fp.getLastD 0 := by
  match xp, fp with
  | [], [] => rfl
  | [], y :: ys => simp at hlen
  | x0 :: xs, [] => simp [interp]
  | x0 :: xs, y0 :: ys =>
    have hx0 : x0 < x := hx x0 (by simp)
    simp only [interp, if_neg (not_le.mpr hx0)]
    rw [List.getLastD_cons]
    exact interpScan_gt_all x ys xs x0 y0 (by simpa using hlen)
      (fun a ha => hx a (by simp [ha]))

theorem getLastD_mem : ∀ (l : List ℚ), l ≠ [] → ∀ d : ℚ, l.getLastD d ∈ l
  | [a], _, d => by simp
  | a :: b :: t, _, d => by
    rw [List.getLastD_cons]
    exact List.mem_cons_of_mem a (getLastD_mem (b :: t) (by simp) a)

theorem foldr_max_ge (b : ℚ) :
    ∀ (l : List ℚ), ∀ a ∈ l, a ≤ l.foldr max b := by
  intro l
  induction l with
  | nil => intro a ha; simp at ha
  | cons c t ih =>
    intro a ha
    rcases List.mem_cons.mp ha with h | h
    · subst h; exact le_max_left _ _
    · exact le_trans (ih a h) (le_max_right _ _)

theorem dischargeLoop_some_of_target (geom : Geometry)
    (levels : StaticLevels) (q_byt n_gar : ℚ) :
    ∀ (n : ℕ) (dV : ℚ),
      dischargeTargetMet geom levels q_byt n_gar (dV + n * (1 / 100)) →
      (dischargeSizingLoop geom levels q_byt n_gar n dV).isSome = true := by
  intro n
  induction n with
  | zero =>
    intro dV h
    simp only [Nat.cast_zero, zero_mul, add_zero] at h
    simp [dischargeSizingLoop, if_pos h]
  | succ n ih =>
    intro dV h
    by_cases h0 : dischargeTargetMet geom levels q_byt n_gar dV
    · simp [dischargeSizingLoop, if_pos h0]
    · have harg : dV + (n.succ : ℚ) * (1 / 100) =
          (dV + 1 / 100) + (n : ℚ) * (1 / 100) := by push_cast; ring
      rw [harg] at h
      have := ih (dV + 1 / 100) h
      simpa [dischargeSizingLoop, if_neg h0] using this

theorem dischargeLoop_none_of_lowcap (geom : Geometry)
    (levels : StaticLevels) (q_byt n_gar : ℚ)
    (h : levels.installed_capacity < 1.05 * n_gar) :
    ∀ (fuel : ℕ) (dV : ℚ),
      dischargeSizingLoop geom levels q_byt n_gar fuel dV = none := by
  have hnot : ∀ dV, ¬dischargeTargetMet geom levels q_byt n_gar dV := by
    intro dV htm
    unfold dischargeTargetMet at htm
    exact absurd (le_trans htm (min_le_right _ _)) (not_le.mpr h)
  intro fuel
  induction fuel with
  | zero => intro dV; simp [dischargeSizingLoop, if_neg (hnot dV)]
  | succ fuel ih =>
    intro dV
    simp [dischargeSizingLoop, if_neg (hnot dV), ih]

theorem dischargeLoop_terminates (geom : Geometry) (levels : StaticLevels)
    (q_byt n_gar : ℚ)
    (hlen : geom.lowwater_marks.length ≤ geom.lowwater_inflows.length)
    (hne : geom.lowwater_marks ≠ [])
    (hnrl : ∀ z ∈ geom.lowwater_marks, z < levels.nrl)
    (hcap : 1.05 * n_gar ≤ levels.installed_capacity) :
    ∃ fuel dV,
      dischargeSizingLoop geom levels q_byt n_gar fuel 0 = some dV := by
  set h0 := levels.nrl - geom.lowwater_marks.getLastD 0 with hh0
  have hh0pos : 0 < h0 :=
    sub_pos.mpr (hnrl _ (getLastD_mem _ hne 0))
  set B1 := geom.lowwater_inflows.foldr max 0 with hB1
  set B2 := 1000 * levels.installed_capacity / (17 / 2 * h0) with hB2
  set Q := max (B1 + 1) B2 with hQ
  set δ : ℚ := 10000000 / SECONDS_PER_MONTH with hδdef
  have hδ : 0 < δ := by rw [hδdef]; unfold SECONDS_PER_MONTH; norm_num
  obtain ⟨k, hk⟩ := exists_nat_gt ((Q - q_byt) / δ)
  have hq : Q < q_byt + k * δ := by
    have := (div_lt_iff hδ).mp hk
    linarith
  have hqe : q_byt + (0 + (k : ℚ) * (1 / 100)) * 1000000000 /
      SECONDS_PER_MONTH = q_byt + k * δ := by
    rw [hδdef]
    ring
  have htm : dischargeTargetMet geom levels q_byt n_gar
      (0 + (k : ℚ) * (1 / 100)) := by
    unfold dischargeTargetMet
    rw [hqe]
    set q := q_byt + (k : ℚ) * δ with hqdef
    have hzlow : compute_lowwater_mark q geom =
        geom.lowwater_marks.getLastD 0 := by
      unfold compute_lowwater_mark
      apply interp_gt_all q _ _ hlen
      intro a ha
      have h1 : a ≤ B1 := foldr_max_ge 0 _ a ha
      have h2 : B1 + 1 ≤ Q := le_max_left _ _
      linarith
    rw [hzlow, ← hh0]
    have hqB2 : B2 ≤ q := le_trans (le_max_right _ _) (le_of_lt hq)
    have hpow : levels.installed_capacity ≤
        compute_domestic_capacity q h0 := by
      unfold compute_domestic_capacity
      have h85 : (8.5 : ℚ) = 17 / 2 := by norm_num
      rw [h85]
      rw [hB2] at hqB2
      have hd : 1000 * levels.installed_capacity ≤ q * (17 / 2 * h0) := by
        have hpos : 0 < 17 / 2 * h0 := by positivity
        calc 1000 * levels.installed_capacity
            = 1000 * levels.installed_capacity / (17 / 2 * h0) *
              (17 / 2 * h0) := by field_simp
          _ ≤ q * (17 / 2 * h0) :=
            mul_le_mul_of_nonneg_right hqB2 (le_of_lt hpos)
      rw [le_div_iff (by norm_num : (0 : ℚ) < 1000)]
      linarith
    rw [ge_iff_le, min_def]
    split
    · linarith
    · exact hcap
  have hsome := dischargeLoop_some_of_target geom levels q_byt n_gar k 0 htm
  obtain ⟨dV, hdV⟩ := Option.isSome_iff_exists.mp hsome
  exact ⟨k, dV, hdV⟩

theorem calc_discharge_none_of_lowcap (geom : Geometry)
    (levels : StaticLevels) (series : HydrologicalSeries) (fuel : ℕ) :
    ∀ (idxs : List ℕ) (idx : ℕ), idx ∈ idxs →
      levels.installed_capacity <
        1.05 * series.guaranteed_capacity.getD idx 0 →
      GreedyOptimizer.calc_discharge geom levels series fuel idxs =
        none := by
  intro idxs
  induction idxs with
  | nil => intro idx h; simp at h
  | cons i rest ih =>
    intro idx hmem hcap
    rcases List.mem_cons.mp hmem with h | h
    · subst h
      have hnone := dischargeLoop_none_of_lowcap geom levels
        (series.domestic_inflows.getD idx 0) _ hcap fuel 0
      simp only [GreedyOptimizer.calc_discharge]
      rw [hnone]
    · simp only [GreedyOptimizer.calc_discharge]
      rcases hl : dischargeSizingLoop geom levels
          (series.domestic_inflows.getD i 0)
          (series.guaranteed_capacity.getD i 0) fuel 0 with _ | dV
      · rfl
      · rw [ih idx h hcap]

theorem calc_discharge_volumes_eq (geom : Geometry) (levels : StaticLevels)
    (series : HydrologicalSeries) (sv : ℚ) (fuel : ℕ) :
    ∀ idxs : List ℕ,
      ReservoirSimulator.calc_discharge_volumes geom levels series sv fuel
        idxs = GreedyOptimizer.calc_discharge geom levels series fuel
        idxs := by
  intro idxs
  induction idxs with
  | nil => rfl
  | cons i rest ih =>
    simp only [ReservoirSimulator.calc_discharge_volumes,
      GreedyOptimizer.calc_discharge, ih]

/-- C10: the step-growing discharge-sizing loop terminates when NRL exceeds
every lowwater mark and the installed capacity is at least `1.05 ×` the
month's guaranteed capacity; conversely, when the installed capacity is
below `1.05 ×` some DISCHARGE month's guaranteed capacity, neither
`GreedyOptimizer.compute_dV` nor `ReservoirSimulator.run` ever returns,
whatever the fuel. -/
theorem C10_termination :
    (∀ (geom : Geometry) (levels : StaticLevels) (q_byt n_gar : ℚ),
        geom.lowwater_marks.length ≤ geom.lowwater_inflows.length →
        geom.lowwater_marks ≠ [] →
        (∀ z ∈ geom.lowwater_marks, z < levels.nrl) →
        1.05 * n_gar ≤ levels.installed_capacity →
        ∃ fuel dV,
          dischargeSizingLoop geom levels q_byt n_gar fuel 0 = some dV) ∧
      (∀ (geom : Geometry) (levels : StaticLevels)
          (series : HydrologicalSeries) (modes : List OperationMode)
          (fuel : ℕ) (idx : ℕ),
        idx ∈ modeIndices OperationMode.DISCHARGE modes →
        levels.installed_capacity <
          1.05 * series.guaranteed_capacity.getD idx 0 →
        GreedyOptimizer.compute_dV geom levels series modes fuel = none ∧
          ReservoirSimulator.run geom levels series modes fuel = none) := by
  constructor
  · exact fun geom levels q_byt n_gar h1 h2 h3 h4 =>
      dischargeLoop_terminates geom levels q_byt n_gar h1 h2 h3 h4
  · intro geom levels series modes fuel idx hmem hcap
    have hd := calc_discharge_none_of_lowcap geom levels series fuel
      (modeIndices OperationMode.DISCHARGE modes) idx hmem hcap
    constructor
    · unfold GreedyOptimizer.compute_dV GreedyOptimizer.compute_dV_raw
      rw [hd]
      rfl
    · unfold ReservoirSimulator.run
      split
      · rw [calc_discharge_volumes_eq, hd]
      · rfl

unseal Rat.add Rat.mul Rat.sub Rat.inv Rat.ofScientific in
/-- Witness for C10: on `miniGeometry`, the loop terminates for the
high-capacity levels, and with `installed_capacity = 4 < 1.05 · 4` the
optimizer and the simulator both diverge (at fuel 5). -/
theorem C10_witness :
    (∃ fuel dV,
      dischargeSizingLoop miniGeometry miniLevels 10 4 fuel 0 = some dV) ∧
      GreedyOptimizer.compute_dV miniGeometry miniLevelsLow miniSeries
        miniModes 5 = none ∧
      ReservoirSimulator.run miniGeometry miniLevelsLow miniSeries miniModes
        5 = none := by
  refine ⟨C10_termination.1 miniGeometry miniLevels 10 4 (by decide)
    (by decide) (by decide) (by decide), ?_⟩
  exact C10_termination.2 miniGeometry miniLevelsLow miniSeries miniModes 5
    0 (by decide) (by decide)

/-! ### C4 -/

theorem sum_set_q : ∀ (l : List ℚ) (i : ℕ) (x : ℚ), i < l.length →
    (l.set i x).sum = l.sum - l.getD i 0 + x := by
  intro l
  induction l with
  | nil => intro i x h; simp at h
  | cons a t ih =>
    intro i x h
    match i with
    | 0 => simp [List.set, List.getD]; ring
    | i + 1 =>
      have hi : i < t.length := by simpa using h
      simp only [List.set, List.sum_cons, List.getD_cons_succ]
      rw [ih i x hi]
      ring

theorem npArgmaxAux_bound : ∀ (l : List ℚ) (i bi : ℕ) (b : ℚ),
    npArgmaxAux i bi b l = bi ∨
      (i ≤ npArgmaxAux i bi b l ∧ npArgmaxAux i bi b l < i + l.length) := by
  intro l
  induction l with
  | nil => intro i bi b; left; rfl
  | cons v rest ih =>
    intro i bi b
    unfold npArgmaxAux
    split
    · rcases ih (i + 1) i v with h | h
      · right; rw [h]; simp
      · right
        refine ⟨le_trans (Nat.le_succ i) h.1, ?_⟩
        have := h.2
        simp only [List.length_cons]
        omega
    · rcases ih (i + 1) bi b with h | h
      · left; exact h
      · right
        refine ⟨le_trans (Nat.le_succ i) h.1, ?_⟩
        have := h.2
        simp only [List.length_cons]
        omega

theorem npArgmax_lt (seq : List ℚ) (h : seq ≠ []) :
    npArgmax seq < seq.length := by
  unfold npArgmax
  rcases npArgmaxAux_bound seq 0 0 (seq.headD 0) with h2 | h2
  · rw [h2]
    exact List.length_pos.mpr h
  · simpa using h2.2

theorem dischargeLoop_ge (geom : Geometry) (levels : StaticLevels)
    (q_byt n_gar : ℚ) :
    ∀ (fuel : ℕ) (dV d : ℚ),
      dischargeSizingLoop geom levels q_byt n_gar fuel dV = some d →
      dV ≤ d := by
  intro fuel
  induction fuel with
  | zero =>
    intro dV d h
    unfold dischargeSizingLoop at h
    by_cases ht : dischargeTargetMet geom levels q_byt n_gar dV
    · rw [if_pos ht] at h
      exact le_of_eq (Option.some.inj h)
    · rw [if_neg ht] at h
      exact absurd h (by simp)
  | succ fuel ih =>
    intro dV d h
    unfold dischargeSizingLoop at h
    by_cases ht : dischargeTargetMet geom levels q_byt n_gar dV
    · rw [if_pos ht] at h
      exact le_of_eq (Option.some.inj h)
    · rw [if_neg ht] at h
      have := ih (dV + 1 / 100) d h
      linarith

theorem calc_discharge_spec (geom : Geometry) (levels : StaticLevels)
    (series : HydrologicalSeries) (fuel : ℕ) :
    ∀ (idxs : List ℕ) (ds : List ℚ),
      GreedyOptimizer.calc_discharge geom levels series fuel idxs =
        some ds →
      ds.length = idxs.length ∧ ∀ d ∈ ds, 0 ≤ d := by
  intro idxs
  induction idxs with
  | nil =>
    intro ds h
    simp only [GreedyOptimizer.calc_discharge, Option.some.injEq] at h
    subst h
    simp
  | cons i rest ih =>
    intro ds h
    simp only [GreedyOptimizer.calc_discharge] at h
    rcases hl : dischargeSizingLoop geom levels
        (series.domestic_inflows.getD i 0)
        (series.guaranteed_capacity.getD i 0) fuel 0 with _ | dV
    · rw [hl] at h; exact absurd h (by simp)
    rw [hl] at h
    rcases hr : GreedyOptimizer.calc_discharge geom levels series fuel
        rest with _ | tail
    · rw [hr] at h; exact absurd h (by simp)
    rw [hr] at h
    simp only [Option.some.injEq] at h
    subst h
    obtain ⟨hlen, hpos⟩ := ih tail hr
    refine ⟨by simp [hlen], ?_⟩
    intro d hd
    rcases List.mem_cons.mp hd with h | h
    · subst h
      exact dischargeLoop_ge geom levels _ _ fuel 0 d hl
    · exact hpos d h

theorem modeIndicesAux_length (mode : OperationMode) :
    ∀ (ms : List OperationMode) (i : ℕ),
      (modeIndicesAux mode i ms).length = ms.count mode := by
  intro ms
  induction ms with
  | nil => intro i; rfl
  | cons m rest ih =>
    intro i
    unfold modeIndicesAux
    by_cases hm : m = mode
    · rw [if_pos hm]
      simp [List.count_cons, hm, ih]
    · rw [if_neg hm]
      simp [List.count_cons, hm, ih]

theorem modeIndices_length (mode : OperationMode)
    (modes : List OperationMode) :
    (modeIndices mode modes).length = modes.count mode :=
  modeIndicesAux_length mode modes 0

theorem initial_fill_spec (S : ℚ) (f_idx : List ℕ) (h : f_idx ≠ []) :
    (GreedyOptimizer.initial_fill S f_idx).sum = S ∧
      (GreedyOptimizer.initial_fill S f_idx).length = f_idx.length := by
  have hne : f_idx.isEmpty = false := by
    rcases f_idx with _ | ⟨a, t⟩
    · exact absurd rfl h
    · rfl
  unfold GreedyOptimizer.initial_fill
  rw [hne]
  simp only [Bool.false_eq_true, if_false, List.sum_replicate,
    List.length_replicate, smul_eq_mul]
  have hlen : (f_idx.length : ℚ) ≠ 0 := by
    simp [List.length_eq_zero, h]
  constructor
  · field_simp
  · trivial

theorem recompute_caps_length (geom : Geometry) (levels : StaticLevels)
    (series : HydrologicalSeries) :
    ∀ (vols : List ℚ) (idxs : List ℕ) (vol : ℚ),
      (GreedyOptimizer.recompute_caps geom levels series vol vols
        idxs).length = min vols.length idxs.length := by
  intro vols
  induction vols with
  | nil => intro idxs vol; cases idxs <;> simp [GreedyOptimizer.recompute_caps]
  | cons dV rest ih =>
    intro idxs vol
    cases idxs with
    | nil => simp [GreedyOptimizer.recompute_caps]
    | cons i irest =>
      simp only [GreedyOptimizer.recompute_caps, List.length_cons, ih]
      omega

theorem balanceWhile_spec (geom : Geometry) (levels : StaticLevels)
    (series : HydrologicalSeries) (f_idx : List ℕ) (i idx : ℕ)
    (n_gar : ℚ) :
    ∀ (fuel : ℕ) (v caps v' caps' : List ℚ),
      v.length = caps.length → i < v.length →
      GreedyOptimizer.balanceWhile geom levels series f_idx i idx n_gar
        fuel (v, caps) = some (v', caps') →
      v'.length = v.length ∧ caps'.length = caps.length ∧
        v'.sum = v.sum := by
  intro fuel
  induction fuel with
  | zero =>
    intro v caps v' caps' hlen hi h
    unfold GreedyOptimizer.balanceWhile at h
    split at h
    · exact absurd h (by simp)
    · obtain ⟨h1, h2⟩ := Prod.mk.injEq .. ▸ Option.some.inj h
      subst h1; subst h2
      exact ⟨rfl, rfl, rfl⟩
  | succ fuel ih =>
    intro v caps v' caps' hlen hi h
    unfold GreedyOptimizer.balanceWhile at h
    split at h
    · have hcne : caps ≠ [] := by
        intro hc
        subst hc
        simp only [List.length_nil] at hlen
        omega
      have hj : npArgmax caps < v.length := by
        rw [hlen]
        exact npArgmax_lt caps hcne
      have hstep := ih _ _ v' caps' (by simp [hlen]) (by simpa using hi) h
      obtain ⟨hl1, hl2, hs⟩ := hstep
      refine ⟨by simpa using hl1, by simpa using hl2, ?_⟩
      rw [hs]
      have hj2 : npArgmax caps <
          (v.set (npArgmax caps)
            (v.getD (npArgmax caps) 0 + 0.01)).length := by
        simpa using hj
      rw [sum_set_q _ _ _ (by simpa using hi), sum_set_q _ _ _ hj]
      ring
    · obtain ⟨h1, h2⟩ := Prod.mk.injEq .. ▸ Option.some.inj h
      subst h1; subst h2
      exact ⟨rfl, rfl, rfl⟩

theorem balanceFor_spec (geom : Geometry) (levels : StaticLevels)
    (series : HydrologicalSeries) (f_idx : List ℕ) (fuel : ℕ) :
    ∀ (rest : List ℕ) (i : ℕ) (v caps v' caps' : List ℚ),
      v.length = caps.length → i + rest.length = v.length →
      GreedyOptimizer.balanceFor geom levels series f_idx fuel i rest
        (v, caps) = some (v', caps') →
      v'.length = v.length ∧ v'.sum = v.sum := by
  intro rest
  induction rest with
  | nil =>
    intro i v caps v' caps' hlen hi h
    simp only [GreedyOptimizer.balanceFor, Option.some.injEq,
      Prod.mk.injEq] at h
    obtain ⟨h1, h2⟩ := h
    subst h1
    exact ⟨rfl, rfl⟩
  | cons idx rrest ih =>
    intro i v caps v' caps' hlen hi h
    simp only [GreedyOptimizer.balanceFor] at h
    rcases hw : GreedyOptimizer.balanceWhile geom levels series f_idx i idx
        (series.guaranteed_capacity.getD idx 0) fuel (v, caps) with
      _ | st'
    · rw [hw] at h; exact absurd h (by simp)
    rw [hw] at h
    obtain ⟨v1, caps1⟩ := st'
    have hi0 : i < v.length := by
      simp only [List.length_cons] at hi
      omega
    obtain ⟨hl1, hl2, hs1⟩ := balanceWhile_spec geom levels series f_idx i
      idx _ fuel v caps v1 caps1 hlen hi0 hw
    obtain ⟨hl3, hs3⟩ := ih (i + 1) v1 caps1 v' caps'
      (by rw [hl1, hl2, hlen])
      (by simp only [List.length_cons] at hi; omega) h
    exact ⟨by rw [hl3, hl1], by rw [hs3, hs1]⟩

theorem balance_fill_spec (geom : Geometry) (levels : StaticLevels)
    (series : HydrologicalSeries) (vols : List ℚ) (f_idx : List ℕ)
    (fuel : ℕ) (fill : List ℚ) (hv : vols.length = f_idx.length) :
    GreedyOptimizer.balance_fill geom levels series vols f_idx fuel =
      some fill →
    fill.sum = vols.sum ∧ fill.length = vols.length := by
  intro h
  unfold GreedyOptimizer.balance_fill at h
  split at h
  · rename_i hempty
    simp only [Option.some.injEq] at h
    subst h
    have : f_idx = [] := by
      rcases f_idx with _ | _
      · rfl
      · simp at hempty
    rw [this] at hv
    simp only [List.length_nil] at hv
    rw [List.length_eq_zero.mp hv]
    exact ⟨rfl, rfl⟩
  · rw [Option.map_eq_some'] at h
    obtain ⟨st, hb, hfill⟩ := h
    obtain ⟨v1, caps1⟩ := st
    have hcaps : (GreedyOptimizer.recompute_caps geom levels series
        levels.nrl vols f_idx).length = vols.length := by
      rw [recompute_caps_length, hv]
      simp
    obtain ⟨hl, hs⟩ := balanceFor_spec geom levels series f_idx fuel f_idx 0
      vols _ v1 caps1 (by rw [hcaps]) (by simpa using hv.symm) hb
    rw [← hfill]
    exact ⟨hs, hl⟩

theorem assemblePlan_sum : ∀ (modes : List OperationMode)
    (ds fs dv : List ℚ),
    ds.length = modes.count OperationMode.DISCHARGE →
    fs.length = modes.count OperationMode.FILL →
    assemblePlan modes ds fs = some dv →
    dv.sum = fs.sum - ds.sum := by
  intro modes
  induction modes with
  | nil =>
    intro ds fs dv hd hf h
    simp only [List.count_nil] at hd hf
    rw [List.length_eq_zero.mp hd, List.length_eq_zero.mp hf]
    simp only [assemblePlan, Option.some.injEq] at h
    subst h
    simp
  | cons m ms ih =>
    intro ds fs dv hd hf h
    cases m with
    | DISCHARGE =>
      have hd' : ds.length = ms.count OperationMode.DISCHARGE + 1 := by
        rw [hd]; simp [List.count_cons]
      match ds with
      | d :: ds' =>
        simp only [assemblePlan, Option.map_eq_some'] at h
        obtain ⟨t, ht, hdv⟩ := h
        subst hdv
        have := ih ds' fs t (by simpa using hd')
          (by rw [hf]; simp [List.count_cons]) ht
        simp only [List.sum_cons, this]
        ring
    | FILL =>
      have hf' : fs.length = ms.count OperationMode.FILL + 1 := by
        rw [hf]; simp [List.count_cons]
      match fs with
      | f :: fs' =>
        simp only [assemblePlan, Option.map_eq_some'] at h
        obtain ⟨t, ht, hdv⟩ := h
        subst hdv
        have := ih ds fs' t
          (by rw [hd]; simp [List.count_cons]) (by simpa using hf') ht
        simp only [List.sum_cons, this]
        ring

theorem greedy_raw_sum (geom : Geometry) (levels : StaticLevels)
    (series : HydrologicalSeries) (modes : List OperationMode) (fuel : ℕ)
    (dv : List ℚ) (hne : modeIndices OperationMode.FILL modes ≠ [])
    (h : GreedyOptimizer.compute_dV_raw geom levels series modes fuel =
      some dv) :
    dv.sum = 0 := by
  unfold GreedyOptimizer.compute_dV_raw at h
  split at h
  · exact absurd h (by simp)
  rename_i disc hc
  split at h
  · exact absurd h (by simp)
  rename_i fill hbf
  obtain ⟨hdlen, _⟩ := calc_discharge_spec geom levels series fuel _ disc hc
  obtain ⟨hifs, hifl⟩ := initial_fill_spec disc.sum _ hne
  obtain ⟨hfs, hfl⟩ := balance_fill_spec geom levels series _ _ fuel fill
    hifl hbf
  have hsum := assemblePlan_sum modes disc fill dv
    (by rw [hdlen, modeIndices_length])
    (by rw [hfl, hifl, modeIndices_length]) h
  rw [hsum, hfs, hifs]
  ring

/-- C4: whenever `GreedyOptimizer.compute_dV` returns a plan, the plan sums
to within `1e-6` of zero, and (when at least one FILL month exists) the
plan built before the closure `assert` sums to exactly zero, so the assert
never fires and the same plan is returned; a violation of the closure
invariant is the fatal `AssertionError` (`none`), not a recoverable
value. -/
theorem C4_greedy_closure :
    (∀ (geom : Geometry) (levels : StaticLevels)
        (series : HydrologicalSeries) (modes : List OperationMode)
        (fuel : ℕ) (dv : List ℚ),
        GreedyOptimizer.compute_dV geom levels series modes fuel =
          some dv →
        |dv.sum| < 1 / 1000000) ∧
      (∀ (geom : Geometry) (levels : StaticLevels)
          (series : HydrologicalSeries) (modes : List OperationMode)
          (fuel : ℕ) (dv : List ℚ),
        modeIndices OperationMode.FILL modes ≠ [] →
        GreedyOptimizer.compute_dV_raw geom levels series modes fuel =
          some dv →
        dv.sum = 0 ∧
          GreedyOptimizer.compute_dV geom levels series modes fuel =
            some dv) := by
  constructor
  · intro geom levels series modes fuel dv h
    unfold GreedyOptimizer.compute_dV at h
    rcases hr : GreedyOptimizer.compute_dV_raw geom levels series modes
        fuel with _ | dv'
    · rw [hr] at h; exact absurd h (by simp)
    rw [hr] at h
    have h2 : (if |dv'.sum| < 1 / 1000000 then some dv' else none) =
        some dv := h
    split at h2
    · rename_i hlt
      simp only [Option.some.injEq] at h2
      subst h2
      exact hlt
    · exact absurd h2 (by simp)
  · intro geom levels series modes fuel dv hne h
    have hsum := greedy_raw_sum geom levels series modes fuel dv hne h
    refine ⟨hsum, ?_⟩
    unfold GreedyOptimizer.compute_dV
    rw [h]
    simp [hsum]

unseal Rat.add Rat.mul Rat.sub Rat.inv Rat.ofScientific in
/-- Witness for C4 on the small two-month instance: the returned plan is
`[-0.01, 0.01]` and satisfies the closure bound. -/
theorem C4_witness :
    GreedyOptimizer.compute_dV miniGeometry miniLevels miniSeries miniModes
        5 = some [-(1 : ℚ) / 100, 1 / 100] ∧
      |([-(1 : ℚ) / 100, 1 / 100]).sum| < 1 / 1000000 :=
  ⟨by decide,
    C4_greedy_closure.1 miniGeometry miniLevels miniSeries miniModes 5
      [-(1 : ℚ) / 100, 1 / 100] (by decide)⟩

/-! ### C2 and C1 -/

theorem assemblePlan_discharge_sign : ∀ (modes : List OperationMode)
    (ds fs dv : List ℚ), (∀ d ∈ ds, 0 ≤ d) →
    assemblePlan modes ds fs = some dv →
    ∀ p ∈ modes.zip dv, p.1 = OperationMode.DISCHARGE → p.2 ≤ 0 := by
  intro modes
  induction modes with
  | nil =>
    intro ds fs dv _ h p hp
    simp only [assemblePlan, Option.some.injEq] at h
    subst h
    simp at hp
  | cons m ms ih =>
    intro ds fs dv hds h p hp hpd
    cases m with
    | DISCHARGE =>
      match ds with
      | [] => simp [assemblePlan] at h
      | d :: ds' =>
        simp only [assemblePlan, Option.map_eq_some'] at h
        obtain ⟨t, ht, hdv⟩ := h
        subst hdv
        rw [List.zip_cons_cons] at hp
        rcases List.mem_cons.mp hp with h1 | h1
        · subst h1
          exact neg_nonpos.mpr (hds d (by simp))
        · exact ih ds' fs t (fun x hx => hds x (by simp [hx])) ht p h1 hpd
    | FILL =>
      match fs with
      | [] => simp [assemblePlan] at h
      | f :: fs' =>
        simp only [assemblePlan, Option.map_eq_some'] at h
        obtain ⟨t, ht, hdv⟩ := h
        subst hdv
        rw [List.zip_cons_cons] at hp
        rcases List.mem_cons.mp hp with h1 | h1
        · subst h1
          simp at hpd
        · exact ih ds fs' t hds ht p h1 hpd

theorem monthLoop_discharge_sign (geom : Geometry) (levels : StaticLevels) :
    ∀ (months : List ℤ) (qs ns : List ℚ) (ms : List OperationMode)
      (vol : ℚ) (dq fq : List ℚ) (recs : List SimRecord),
      (∀ d ∈ dq, 0 ≤ d) →
      ReservoirSimulator.monthLoop geom levels months qs ns ms vol dq fq =
        some recs →
      ∀ r ∈ recs, r.mode = OperationMode.DISCHARGE → 0 ≤ r.dV_report := by
  intro months
  induction months with
  | nil =>
    intro qs ns ms vol dq fq recs _ h r hr
    simp only [ReservoirSimulator.monthLoop, Option.some.injEq] at h
    subst h
    simp at hr
  | cons month months ih =>
    intro qs ns ms vol dq fq recs hdq h r hr hmode
    match qs, ns, ms with
    | [], _, _ => simp [ReservoirSimulator.monthLoop] at h
    | _ :: _, [], _ => simp [ReservoirSimulator.monthLoop] at h
    | _ :: _, _ :: _, [] => simp [ReservoirSimulator.monthLoop] at h
    | q :: qs', n :: ns', mode :: ms' =>
      cases mode with
      | DISCHARGE =>
        match dq with
        | [] => simp [ReservoirSimulator.monthLoop] at h
        | d :: dq' =>
          simp only [ReservoirSimulator.monthLoop,
            Option.map_eq_some'] at h
          obtain ⟨recs', hrec', hrecs⟩ := h
          subst hrecs
          rcases List.mem_cons.mp hr with h1 | h1
          · subst h1
            rw [hmode] at hmode
            simpa using hdq d (by simp)
          · exact ih qs' ns' ms' _ dq' fq recs'
              (fun x hx => hdq x (by simp [hx])) hrec' r h1 hmode
      | FILL =>
        match fq with
        | [] => simp [ReservoirSimulator.monthLoop] at h
        | f :: fq' =>
          simp only [ReservoirSimulator.monthLoop,
            Option.map_eq_some'] at h
          obtain ⟨recs', hrec', hrecs⟩ := h
          subst hrecs
          rcases List.mem_cons.mp hr with h1 | h1
          · subst h1
            simp at hmode
          · exact ih qs' ns' ms' _ dq fq' recs' hdq hrec' r h1 hmode

theorem run_discharge_sign (geom : Geometry) (levels : StaticLevels)
    (series : HydrologicalSeries) (modes : List OperationMode) (fuel : ℕ)
    (recs : List SimRecord)
    (h : ReservoirSimulator.run geom levels series modes fuel =
      some recs) :
    ∀ r ∈ recs, r.mode = OperationMode.DISCHARGE → 0 ≤ r.dV_report := by
  unfold ReservoirSimulator.run at h
  split at h
  · split at h
    · exact absurd h (by simp)
    rename_i dvs hdvs
    split at h
    · exact absurd h (by simp)
    rename_i fills hfills
    have hnn : ∀ d ∈ dvs, 0 ≤ d := by
      rw [calc_discharge_volumes_eq] at hdvs
      exact (calc_discharge_spec geom levels series fuel _ dvs hdvs).2
    exact monthLoop_discharge_sign geom levels _ _ _ _ _ _ _ recs hnn h
  · exact absurd h (by simp)

/-- C2 (amended): the sign convention is *not* uniform.  In the plans the
greedy optimizer returns, every DISCHARGE month carries a non-positive
delta, while in the records `ReservoirSimulator.run` emits, every
DISCHARGE month's `dV` report field is non-negative — the simulator's
report column carries the opposite sign from the optimizer's plan. -/
theorem C2_amended_signs :
    (∀ (geom : Geometry) (levels : StaticLevels)
        (series : HydrologicalSeries) (modes : List OperationMode)
        (fuel : ℕ) (dv : List ℚ),
        GreedyOptimizer.compute_dV geom levels series modes fuel =
          some dv →
        ∀ p ∈ modes.zip dv, p.1 = OperationMode.DISCHARGE → p.2 ≤ 0) ∧
      (∀ (geom : Geometry) (levels : StaticLevels)
          (series : HydrologicalSeries) (modes : List OperationMode)
          (fuel : ℕ) (recs : List SimRecord),
        ReservoirSimulator.run geom levels series modes fuel = some recs →
        ∀ r ∈ recs, r.mode = OperationMode.DISCHARGE →
          0 ≤ r.dV_report) := by
  constructor
  · intro geom levels series modes fuel dv h
    unfold GreedyOptimizer.compute_dV at h
    rcases hr : GreedyOptimizer.compute_dV_raw geom levels series modes
        fuel with _ | dv'
    · rw [hr] at h; exact absurd h (by simp)
    rw [hr] at h
    have h2 : (if |dv'.sum| < 1 / 1000000 then some dv' else none) =
        some dv := h
    have hdv : dv' = dv := by
      split at h2
      · exact Option.some.inj h2
      · exact absurd h2 (by simp)
    subst hdv
    unfold GreedyOptimizer.compute_dV_raw at hr
    split at hr
    · exact absurd hr (by simp)
    rename_i disc hc
    split at hr
    · exact absurd hr (by simp)
    rename_i fill hbf
    exact assemblePlan_discharge_sign modes disc fill dv'
      (calc_discharge_spec geom levels series fuel _ disc hc).2 hr
  · intro geom levels series modes fuel recs h
    exact run_discharge_sign geom levels series modes fuel recs h

unseal Rat.add Rat.mul Rat.sub Rat.inv Rat.ofScientific in
/-- Counterexample for C2: on the small two-month instance the single
DISCHARGE month carries delta `−0.01` in the greedy plan but `+0.01` in
the `dV` column of the simulator's report — the claimed uniform sign
convention fails. -/
theorem C2_counterexample :
    GreedyOptimizer.compute_dV miniGeometry miniLevels miniSeries miniModes
        5 = some [-(1 : ℚ) / 100, 1 / 100] ∧
      (ReservoirSimulator.run miniGeometry miniLevels miniSeries miniModes
        5).map (fun rs => rs.map (fun r => r.dV_report)) =
        some [(1 : ℚ) / 100, -(1 : ℚ) / 100] ∧
      (-(1 : ℚ) / 100 < 0 ∧ (0 : ℚ) < 1 / 100) :=
  ⟨by decide, by decide, by norm_num⟩

unseal Rat.add Rat.mul Rat.sub Rat.inv Rat.ofScientific in
/-- Witness for C2 (amended) on the small instance: the DISCHARGE entry of
the returned greedy plan is non-positive. -/
theorem C2_witness :
    GreedyOptimizer.compute_dV miniGeometry miniLevels miniSeries miniModes
        5 = some [-(1 : ℚ) / 100, 1 / 100] ∧ -(1 : ℚ) / 100 ≤ 0 :=
  ⟨by decide,
    C2_amended_signs.1 miniGeometry miniLevels miniSeries miniModes 5
      [-(1 : ℚ) / 100, 1 / 100] (by decide)
      (OperationMode.DISCHARGE, -(1 : ℚ) / 100) (by decide) rfl⟩

unseal Rat.add Rat.mul Rat.sub Rat.inv Rat.ofScientific in
/-- C1: `ReservoirSimulator.run` takes no volume-change plan — it sizes
discharge volumes itself (through the same step-growing loop) and
balances the fill months internally; consequently the `dV` column of its
report differs from the plan of the chosen optimizer on the very same
inputs (facade calls crash outright: `WECAnalyzer.simulate` passes an
`optimizer=` keyword the simulator's constructor does not accept). -/
theorem C1_report_rows_not_plan :
    GreedyOptimizer.compute_dV miniGeometry miniLevels miniSeries miniModes
        5 = some [-(1 : ℚ) / 100, 1 / 100] ∧
      (ReservoirSimulator.run miniGeometry miniLevels miniSeries miniModes
        5).map (fun rs => rs.map (fun r => r.dV_report)) =
        some [(1 : ℚ) / 100, -(1 : ℚ) / 100] ∧
      some [(1 : ℚ) / 100, -(1 : ℚ) / 100] ≠
        some [-(1 : ℚ) / 100, 1 / 100] :=
  ⟨by decide, by decide, by decide⟩

end WEC
